import Mathlib

/-!
Autorun sequencing of the esp8266-iperf firmware.

A shallow embedding of the autorun logic in `main/iperf_example_main.c`
(`app_main`: boot countdown and main loop) and `main/cmd_autorun.c`
(the `autorun_*` console commands), with theorems about it.

Conventions of the embedding:

* a byte is a `Nat`; a `char *` is the list of bytes found from the pointed
  address onward, and the C string it denotes is `cstrOf` of that list (the
  bytes before the first NUL);
* the static buffer `content[1024]` of `fn_autorun_get` is a `List Nat` and the
  pointers `autorun_cmdlist`, `autorun_cmd`, `line` into it are offsets;
* calls into the SDK (console engine, linenoise, UART, scheduler, NVS) are
  oracles: functions from the call number to the value the call returns;
* everything observable is recorded, in program order, in a list of `Event`s;
* `while (true)` and the polling loop of `autorun_wait` take a fuel argument
  bounding the number of iterations that are unfolded.
-/

namespace Autorun

/-! ## C strings and libc -/

/-- The C string denoted by a `char *`: the bytes before the first NUL. -/
def cstrOf (p : List Nat) : List Nat := p.takeWhile (fun b => b != 0)

/-- The C string that starts at offset `off` of the buffer `mem`. -/
def cstr (mem : List Nat) (off : Nat) : List Nat := cstrOf (mem.drop off)

/-- Scan of `index`: `p` is the memory from the current address, `off` its offset. -/
def indexAux (c : Nat) : List Nat → Nat → Option Nat
  | [], _ => none
  | b :: rest, off =>
    if b = c then some off else if b = 0 then none else indexAux c rest (off + 1)

/-- The libc call `index(s, c)` for the string at offset `off` of `mem`: the offset of
the first occurrence of `c` in that string, or `none` (NULL) when there is none. -/
def index (mem : List Nat) (off : Nat) (c : Nat) : Option Nat :=
  indexAux c (mem.drop off) off

/-- The libc call `strcmp(a, b)`: the difference of the first bytes that differ,
the end of a string reading as its terminating NUL. -/
def strcmp : List Nat → List Nat → Int
  | [], [] => 0
  | [], b :: _ => -(b : Int)
  | a :: _, [] => (a : Int)
  | a :: as, b :: bs =>
    if a ≠ b then (a : Int) - (b : Int) else if a = 0 then 0 else strcmp as bs

/-- The bytes of a string literal (ASCII). -/
def bytes (s : String) : List Nat := s.toList.map Char.toNat

/-! ## Status codes -/

/-- Value of `ESP_OK` (`esp_err.h`). -/
def ESP_OK : Int := 0

/-- Value of `ESP_ERR_NOT_FOUND` (`esp_err.h`). -/
def ESP_ERR_NOT_FOUND : Int := 0x105

/-- Value of `ESP_ERR_NVS_NOT_FOUND` (`nvs.h`, `ESP_ERR_NVS_BASE + 0x02`). -/
def ESP_ERR_NVS_NOT_FOUND : Int := 0x1102

/-- Value of `ESP_ERR_NVS_INVALID_LENGTH` (`nvs.h`, `ESP_ERR_NVS_BASE + 0x0c`). -/
def ESP_ERR_NVS_INVALID_LENGTH : Int := 0x110c

/-! ## Observable events -/

/-- What `esp_console_run(line, &ret)` gives back: its own return value `err` and the
exit status `ret` of the command it ran. -/
structure RunResult where
  err : Int
  ret : Int
  deriving DecidableEq, Repr

/-- Lifecycle states of a task (`eTaskState` of FreeRTOS `task.h`). -/
inductive eTaskState where
  | eRunning
  | eReady
  | eBlocked
  | eSuspended
  | eDeleted
  | eInvalid
  deriving DecidableEq, Repr

/-- The calls and console outputs of the program that the theorems speak about. -/
inductive Event where
  /-- `printf("ATTENTION: Autorun command-list is [%s]\n", ...)` -/
  | printf_attention (cmdlist : List Nat)
  /-- `printf("\rPress ^C to abort, ... : %d", ix)` -/
  | printf_count (ix : Nat)
  /-- `uart_rx_one_char(&ch)`: `some ch` when it returned OK, `none` otherwise -/
  | uart_rx_one_char (r : Option Nat)
  /-- `printf("\n\nSkipping count and going ahead with autorun")` -/
  | printf_skipping
  /-- `printf("\n\nAutorun interrupted")` -/
  | printf_interrupted
  /-- `vTaskDelay(ticks)` -/
  | vTaskDelay (ticks : Nat)
  /-- `printf("\n\n")` that closes the countdown -/
  | printf_newlines
  /-- `initialize_console()` and the registration of the commands -/
  | console_ready
  /-- `printf("%s [Autorun] now executing ...", prompt, line)` -/
  | printf_autorun (line : List Nat)
  /-- `linenoise(prompt)`: the line read, `none` for NULL -/
  | linenoise (r : Option (List Nat))
  /-- `linenoiseHistoryAdd(line)` -/
  | linenoiseHistoryAdd (line : List Nat)
  /-- `esp_console_run(line, &ret)` -/
  | esp_console_run (line : List Nat)
  /-- `printf("Unrecognized command\n")` -/
  | printf_unrecognized
  /-- `printf("Command returned non-zero error code: 0x%x\n", ret)` -/
  | printf_nonzero (ret : Int)
  /-- `printf("Internal error: %s\n", esp_err_to_name(err))` -/
  | printf_internal (err : Int)
  /-- `LOCAL_xTaskGetHandle(taskname)` -/
  | lookup (taskname : List Nat)
  /-- `LOCAL_eTaskState(th)`: the state it returned -/
  | poll (ts : eTaskState)
  /-- `nvs_open(current_namespace, NVS_READWRITE, &nvs)` and its return value -/
  | nvs_open (err : Int)
  /-- `nvs_get_str(nvs, "cmdlist", content, &max_length)` and its return value -/
  | nvs_get_str (err : Int)
  /-- `nvs_set_str(nvs, "cmdlist", value)` and its return value -/
  | nvs_set_str (value : List Nat) (err : Int)
  /-- `nvs_erase_key(nvs, "cmdlist")` and its return value -/
  | nvs_erase_key (err : Int)
  /-- `nvs_commit(nvs)` and its return value -/
  | nvs_commit (err : Int)
  /-- `nvs_close(nvs)` -/
  | nvs_close
  /-- `arg_print_errors(stderr, ...)` -/
  | arg_print_errors
  /-- an `ESP_LOGE` line of the store functions that reports the code `err` -/
  | log_error (err : Int)
  /-- `ESP_LOGI(..., "Current autorun command-list is: [%s]", content)` -/
  | log_cmdlist (cmdlist : List Nat)
  /-- `ESP_LOGI(..., "No command-list is configured.")` -/
  | log_no_cmdlist
  deriving DecidableEq, Repr

/-- The line an event hands to the console engine, if it is an `esp_console_run`. -/
def runLine : Event → Option (List Nat)
  | Event.esp_console_run l => some l
  | _ => none

/-- The line an event obtained from `linenoise`, if it is one (NULL left out). -/
def readLine : Event → Option (List Nat)
  | Event.linenoise (some l) => some l
  | _ => none

/-- The line an event announces as `[Autorun] now executing`, if it does. -/
def autorunLine : Event → Option (List Nat)
  | Event.printf_autorun l => some l
  | _ => none

/-- The argument of an event that is a `vTaskDelay`. -/
def delayTicks : Event → Option Nat
  | Event.vTaskDelay t => some t
  | _ => none

/-- The state returned by an event that is a `LOCAL_eTaskState` poll. -/
def pollState : Event → Option eTaskState
  | Event.poll ts => some ts
  | _ => none

/-- The result of an event that is a `uart_rx_one_char` probe. -/
def probeResult : Event → Option (Option Nat)
  | Event.uart_rx_one_char r => some r
  | _ => none

/-- The command lines handed to `esp_console_run`, in order. -/
def runs (tr : List Event) : List (List Nat) := tr.filterMap runLine

/-- The lines obtained from `linenoise`, in order (NULL results left out). -/
def linenoiseLines (tr : List Event) : List (List Nat) := tr.filterMap readLine

/-- The lines announced as `[Autorun] now executing`, in order. -/
def autorunLines (tr : List Event) : List (List Nat) := tr.filterMap autorunLine

/-- The results of the `uart_rx_one_char` probes of a trace, in order. -/
def probes (tr : List Event) : List (Option Nat) := tr.filterMap probeResult

/-- The arguments of the `vTaskDelay` calls of a trace, in order. -/
def delays (tr : List Event) : List Nat := tr.filterMap delayTicks

/-- The states returned by the `LOCAL_eTaskState` polls of a trace, in order. -/
def polls (tr : List Event) : List eTaskState := tr.filterMap pollState

/-! ## The main loop of `app_main` (iperf_example_main.c, lines 150 to 185) -/

/-- State of the main loop: the buffer `content` the autorun list lives in, the cursor
`autorun_cmd` (an offset into it, `none` for NULL), and how many times the console
engine and linenoise have been called so far. -/
structure LoopState where
  content : List Nat
  autorun_cmd : Option Nat
  nruns : Nat
  nreads : Nat
  deriving DecidableEq, Repr

/-- The three-way report printed after `esp_console_run` (lines 176 to 182). -/
def report (r : RunResult) : List Event :=
  if r.err = ESP_ERR_NOT_FOUND then [Event.printf_unrecognized]
  else if r.err = ESP_OK ∧ r.ret ≠ ESP_OK then [Event.printf_nonzero r.ret]
  else if r.err ≠ ESP_OK then [Event.printf_internal r.err]
  else []

/-- One iteration of `while (true)`. `engine n l` is what the `n`-th call of
`esp_console_run` returns for the line `l`; `lnoise n` is what the `n`-th call of
`linenoise` returns. The engine is taken to return and to leave `content` alone, and
`linenoiseFree(line)` to change nothing that is modelled. -/
def mainIter (engine : Nat → List Nat → RunResult) (lnoise : Nat → Option (List Nat))
    (s : LoopState) : LoopState × List Event :=
  match s.autorun_cmd with
  | some line =>
    -- autorun_cmd = index(autorun_cmd, ';'); if (autorun_cmd) *(autorun_cmd++) = 0;
    let content1 : List Nat :=
      match index s.content line 59 with
      | some q => s.content.set q 0
      | none => s.content
    let next : Option Nat :=
      match index s.content line 59 with
      | some q => some (q + 1)
      | none => none
    let l := cstr content1 line
    ({ content := content1, autorun_cmd := next, nruns := s.nruns + 1, nreads := s.nreads },
      [Event.printf_autorun l, Event.esp_console_run l] ++ report (engine s.nruns l))
  | none =>
    match lnoise s.nreads with
    | none =>
      -- if (line == NULL) continue;
      ({ s with nreads := s.nreads + 1 }, [Event.linenoise none])
    | some l =>
      ({ s with nruns := s.nruns + 1, nreads := s.nreads + 1 },
        [Event.linenoise (some l), Event.linenoiseHistoryAdd l, Event.esp_console_run l]
          ++ report (engine s.nruns l))

/-- The trace of the first `fuel` iterations of the main loop. -/
def mainLoop (engine : Nat → List Nat → RunResult) (lnoise : Nat → Option (List Nat)) :
    Nat → LoopState → List Event
  | 0, _ => []
  | fuel + 1, s =>
    (mainIter engine lnoise s).2 ++ mainLoop engine lnoise fuel (mainIter engine lnoise s).1

/-- The main loop entered with `autorun_cmd = autorun_cmdlist` (line 150). -/
def dispatch (engine : Nat → List Nat → RunResult) (lnoise : Nat → Option (List Nat))
    (fuel : Nat) (content : List Nat) (autorun_cmdlist : Option Nat) : List Event :=
  mainLoop engine lnoise fuel
    { content := content, autorun_cmd := autorun_cmdlist, nruns := 0, nreads := 0 }

/-! ## The boot countdown of `app_main` (iperf_example_main.c, lines 87 to 106) -/

/-- The three ways the countdown `for` loop is left: `break` at line 95 (`Skipped`),
`break` at line 100 (`Aborted`), loop condition false (`Expired`). -/
inductive Outcome where
  | Skipped
  | Aborted
  | Expired
  deriving DecidableEq, Repr

/-- What the countdown leaves behind: how it ended, the value of `autorun_cmdlist`
(`none` for NULL) and the events it produced. -/
structure Countdown where
  outcome : Outcome
  autorun_cmdlist : Option Nat
  trace : List Event
  deriving DecidableEq, Repr

/-- The loop `for (ix = 5; ix > 0; --ix)`, from the value `ix` on. `uart n` is what the
`n`-th call of `uart_rx_one_char` delivers (`some ch` with status OK, `none` otherwise),
`n` counts the calls made so far, `tickMs` is `portTICK_PERIOD_MS` (a positive constant
of the FreeRTOS configuration, 10 at a tick rate of 100 Hz) and `cmdlist` the pointer
`autorun_cmdlist` on entry. -/
def countdownLoop (tickMs : Nat) (uart : Nat → Option Nat) (cmdlist : Nat) :
    Nat → Nat → Countdown
  | 0, _ => { outcome := Outcome.Expired, autorun_cmdlist := some cmdlist, trace := [] }
  | ix + 1, n =>
    let rest := countdownLoop tickMs uart cmdlist ix (n + 1)
    let goOn : Countdown :=
      { outcome := rest.outcome, autorun_cmdlist := rest.autorun_cmdlist,
        trace := [Event.printf_count (ix + 1), Event.uart_rx_one_char (uart n),
                  Event.vTaskDelay (1000 / tickMs)] ++ rest.trace }
    match uart n with
    | some ch =>
      if ch = 10 ∨ ch = 13 then
        { outcome := Outcome.Skipped, autorun_cmdlist := some cmdlist,
          trace := [Event.printf_count (ix + 1), Event.uart_rx_one_char (some ch),
                    Event.printf_skipping] }
      else if ch = 3 then
        { outcome := Outcome.Aborted, autorun_cmdlist := none,
          trace := [Event.printf_count (ix + 1), Event.uart_rx_one_char (some ch),
                    Event.printf_interrupted] }
      else goOn
    | none => goOn

/-- The countdown as `app_main` runs it: five ticks, `autorun_cmdlist` pointing to the
start of `content`. -/
def countdown (tickMs : Nat) (uart : Nat → Option Nat) : Countdown :=
  countdownLoop tickMs uart 0 5 0

/-- The function `app_main` from the return of `fn_autorun_get` on: `got` is the buffer
`fn_autorun_get` returned a pointer to, `none` when it returned NULL. The trace covers
the countdown, the console set-up and the first `fuel` iterations of the main loop. -/
def app_main_from (tickMs : Nat) (uart : Nat → Option Nat)
    (engine : Nat → List Nat → RunResult) (lnoise : Nat → Option (List Nat))
    (fuel : Nat) (got : Option (List Nat)) : List Event :=
  match got with
  | some content =>
    [Event.printf_attention (cstr content 0)] ++ (countdown tickMs uart).trace
      ++ [Event.printf_newlines, Event.console_ready]
      ++ dispatch engine lnoise fuel content (countdown tickMs uart).autorun_cmdlist
  | none => [Event.console_ready] ++ dispatch engine lnoise fuel [] none

/-! ## Task lookup and `autorun_wait` (cmd_autorun.c, lines 183 to 257) -/

/-- The fields of `TaskStatus_t` that the lookup reads. A handle is an address,
`0` being NULL. -/
structure TaskStatus_t where
  xHandle : Nat
  pcTaskName : List Nat
  deriving DecidableEq, Repr

/-- The scan `for (ix = 0; ix < uxArraySize; ++ix)` of `LOCAL_xTaskGetHandle`, with
`th = NULL` before it. -/
def scanTasks (taskname : List Nat) : List TaskStatus_t → Nat
  | [] => 0
  | t :: rest =>
    if strcmp t.pcTaskName taskname = 0 then t.xHandle else scanTasks taskname rest

/-- The function `LOCAL_xTaskGetHandle`. `mallocOk` tells whether `pvPortMalloc`
returned a block; `snapshot` is the array as filled by `uxTaskGetSystemState`. -/
def LOCAL_xTaskGetHandle (mallocOk : Bool) (snapshot : List TaskStatus_t)
    (taskname : List Nat) : Nat :=
  if mallocOk then scanTasks taskname snapshot else 0

/-- What `arg_parse` leaves for a command with one string argument: the number of
errors and `sval[0]`. -/
structure StrArgs where
  nerrors : Nat
  sval0 : List Nat
  deriving DecidableEq, Repr

/-- The loop `while (ts is eRunning, eReady, eBlocked or eSuspended) vTaskDelay(...)` of
`fn_autorun_cmd_wait`. `state n` is what the `n`-th call of `LOCAL_eTaskState` returns.
The result is `none` when the loop is still running after `fuel` polls. -/
def waitLoop (tickMs : Nat) (state : Nat → eTaskState) : Nat → Nat → Option (List Event)
  | 0, _ => none
  | fuel + 1, n =>
    if state n = eTaskState.eRunning ∨ state n = eTaskState.eReady
        ∨ state n = eTaskState.eBlocked ∨ state n = eTaskState.eSuspended then
      (waitLoop tickMs state fuel (n + 1)).map
        (fun tr => [Event.poll (state n), Event.vTaskDelay (100 / tickMs)] ++ tr)
    else some [Event.poll (state n)]

/-- The command `autorun_wait`. `stateOf th n` is what the `n`-th call of
`LOCAL_eTaskState(th)` returns. The result is the status returned and the events
produced, `none` when the command has not returned after `fuel` polls. -/
def fn_autorun_cmd_wait (tickMs : Nat) (args : StrArgs) (mallocOk : Bool)
    (snapshot : List TaskStatus_t) (stateOf : Nat → Nat → eTaskState) (fuel : Nat) :
    Option (Int × List Event) :=
  if args.nerrors ≠ 0 then some (1, [Event.arg_print_errors])
  else if LOCAL_xTaskGetHandle mallocOk snapshot args.sval0 = 0 then
    some (2, [Event.lookup (cstrOf args.sval0)])
  else
    (waitLoop tickMs (stateOf (LOCAL_xTaskGetHandle mallocOk snapshot args.sval0)) fuel 0).map
      (fun tr => (ESP_OK, Event.lookup (cstrOf args.sval0) :: tr))

/-! ## The command-list store (cmd_autorun.c, lines 47 to 163) -/

/-- The NVS partition as the autorun code sees it: the string stored under key
`"cmdlist"` of namespace `"autorun"` (`none` when the key is absent), its value as of
the last commit, the number of open handles and the number of fallible API calls made
so far. -/
structure Nvs where
  cmdlist : Option (List Nat)
  durable : Option (List Nat)
  sessions : Nat
  calls : Nat
  deriving DecidableEq, Repr

/-- The SDK call `nvs_open(namespace, NVS_READWRITE, &handle)`. `fault n` is the fault
injected into the `n`-th fallible call: `0` lets the call behave as a key/value map,
any other value makes it fail with that code and no effect. -/
def nvs_open (fault : Nat → Int) (s : Nvs) : Int × Nvs :=
  if fault s.calls ≠ 0 then (fault s.calls, { s with calls := s.calls + 1 })
  else (ESP_OK, { s with sessions := s.sessions + 1, calls := s.calls + 1 })

/-- The SDK call `nvs_get_str(handle, "cmdlist", out, &max_length)`: copies the stored
string and its terminator to the start of `out` when they fit in `max_length` bytes. -/
def nvs_get_str (fault : Nat → Int) (s : Nvs) (out : List Nat) (max_length : Nat) :
    Int × List Nat × Nvs :=
  if fault s.calls ≠ 0 then (fault s.calls, out, { s with calls := s.calls + 1 })
  else
    match s.cmdlist with
    | none => (ESP_ERR_NVS_NOT_FOUND, out, { s with calls := s.calls + 1 })
    | some v =>
      if v.length + 1 ≤ max_length then
        (ESP_OK, v ++ 0 :: out.drop (v.length + 1), { s with calls := s.calls + 1 })
      else (ESP_ERR_NVS_INVALID_LENGTH, out, { s with calls := s.calls + 1 })

/-- The SDK call `nvs_set_str(handle, "cmdlist", value)`: stores the C string `value`. -/
def nvs_set_str (fault : Nat → Int) (s : Nvs) (value : List Nat) : Int × Nvs :=
  if fault s.calls ≠ 0 then (fault s.calls, { s with calls := s.calls + 1 })
  else (ESP_OK, { s with cmdlist := some (cstrOf value), calls := s.calls + 1 })

/-- The SDK call `nvs_erase_key(handle, "cmdlist")`: removes the key, and reports
`ESP_ERR_NVS_NOT_FOUND` when the key does not exist (as `nvs.h` documents). -/
def nvs_erase_key (fault : Nat → Int) (s : Nvs) : Int × Nvs :=
  if fault s.calls ≠ 0 then (fault s.calls, { s with calls := s.calls + 1 })
  else
    match s.cmdlist with
    | none => (ESP_ERR_NVS_NOT_FOUND, { s with calls := s.calls + 1 })
    | some _ => (ESP_OK, { s with cmdlist := none, calls := s.calls + 1 })

/-- The SDK call `nvs_commit(handle)`: makes the current value durable. -/
def nvs_commit (fault : Nat → Int) (s : Nvs) : Int × Nvs :=
  if fault s.calls ≠ 0 then (fault s.calls, { s with calls := s.calls + 1 })
  else (ESP_OK, { s with durable := s.cmdlist, calls := s.calls + 1 })

/-- The SDK call `nvs_close(handle)`. -/
def nvs_close (s : Nvs) : Nvs := { s with sessions := s.sessions - 1 }

/-- A store that behaves as a key/value map: no call is made to fail. -/
def noFault : Nat → Int := fun _ => 0

/-- The static buffer `content[1024]` of `fn_autorun_get` before the call (zeroed). -/
def content_init : List Nat := List.replicate 1024 0

/-- Result of a store operation: the value returned, the store afterwards and the
events produced. -/
structure StoreResult (α : Type) where
  value : α
  nvs : Nvs
  trace : List Event

/-- The function `fn_autorun_get`: the buffer it returns a pointer to, `none` for NULL. -/
def fn_autorun_get (fault : Nat → Int) (s : Nvs) : StoreResult (Option (List Nat)) :=
  let o := nvs_open fault s
  if o.1 ≠ ESP_OK then
    { value := none, nvs := o.2, trace := [Event.nvs_open o.1, Event.log_error o.1] }
  else
    let g := nvs_get_str fault o.2 content_init 1024
    if g.1 ≠ ESP_OK then
      -- both branches return NULL at once; only the second one logs
      if g.1 = ESP_ERR_NVS_NOT_FOUND then
        { value := none, nvs := g.2.2, trace := [Event.nvs_open o.1, Event.nvs_get_str g.1] }
      else
        { value := none, nvs := g.2.2,
          trace := [Event.nvs_open o.1, Event.nvs_get_str g.1, Event.log_error g.1] }
    else
      { value := some g.2.1, nvs := nvs_close g.2.2,
        trace := [Event.nvs_open o.1, Event.nvs_get_str g.1, Event.nvs_close] }

/-- The command `autorun_set`. -/
def fn_autorun_cmd_set (fault : Nat → Int) (s : Nvs) (args : StrArgs) : StoreResult Int :=
  if args.nerrors ≠ 0 then { value := 1, nvs := s, trace := [Event.arg_print_errors] }
  else
    let o := nvs_open fault s
    if o.1 ≠ ESP_OK then { value := o.1, nvs := o.2, trace := [Event.nvs_open o.1] }
    else
      let w := nvs_set_str fault o.2 args.sval0
      if w.1 ≠ ESP_OK then
        { value := w.1, nvs := w.2,
          trace := [Event.nvs_open o.1, Event.nvs_set_str (cstrOf args.sval0) w.1] }
      else
        let c := nvs_commit fault w.2
        if c.1 ≠ ESP_OK then
          { value := c.1, nvs := c.2,
            trace := [Event.nvs_open o.1, Event.nvs_set_str (cstrOf args.sval0) w.1,
                      Event.nvs_commit c.1] }
        else
          { value := ESP_OK, nvs := nvs_close c.2,
            trace := [Event.nvs_open o.1, Event.nvs_set_str (cstrOf args.sval0) w.1,
                      Event.nvs_commit c.1, Event.nvs_close] }

/-- The command `autorun_erase`. -/
def fn_autorun_cmd_erase (fault : Nat → Int) (s : Nvs) : StoreResult Int :=
  let o := nvs_open fault s
  if o.1 ≠ ESP_OK then { value := o.1, nvs := o.2, trace := [Event.nvs_open o.1] }
  else
    let e := nvs_erase_key fault o.2
    if e.1 ≠ ESP_OK then
      { value := e.1, nvs := e.2, trace := [Event.nvs_open o.1, Event.nvs_erase_key e.1] }
    else
      let c := nvs_commit fault e.2
      if c.1 ≠ ESP_OK then
        { value := c.1, nvs := c.2,
          trace := [Event.nvs_open o.1, Event.nvs_erase_key e.1, Event.nvs_commit c.1] }
      else
        { value := ESP_OK, nvs := nvs_close c.2,
          trace := [Event.nvs_open o.1, Event.nvs_erase_key e.1, Event.nvs_commit c.1,
                    Event.nvs_close] }

/-- The function `app_main` from the call of `fn_autorun_get` on. -/
def app_main (fault : Nat → Int) (s : Nvs) (tickMs : Nat) (uart : Nat → Option Nat)
    (engine : Nat → List Nat → RunResult) (lnoise : Nat → Option (List Nat))
    (fuel : Nat) : List Event :=
  (fn_autorun_get fault s).trace
    ++ app_main_from tickMs uart engine lnoise fuel (fn_autorun_get fault s).value

/-- The command `autorun_get`. Its local buffer `content[1024]` is only read as the C
string that `nvs_get_str` has written to it. -/
def fn_autorun_cmd_get (fault : Nat → Int) (s : Nvs) : StoreResult Int :=
  let o := nvs_open fault s
  if o.1 ≠ ESP_OK then { value := o.1, nvs := o.2, trace := [Event.nvs_open o.1] }
  else
    let g := nvs_get_str fault o.2 content_init 1024
    if g.1 = ESP_OK then
      { value := ESP_OK, nvs := nvs_close g.2.2,
        trace := [Event.nvs_open o.1, Event.nvs_get_str g.1, Event.log_cmdlist (cstr g.2.1 0),
                  Event.nvs_close] }
    else if g.1 = ESP_ERR_NVS_NOT_FOUND then
      { value := ESP_OK, nvs := nvs_close g.2.2,
        trace := [Event.nvs_open o.1, Event.nvs_get_str g.1, Event.log_no_cmdlist,
                  Event.nvs_close] }
    else
      { value := g.1, nvs := g.2.2,
        trace := [Event.nvs_open o.1, Event.nvs_get_str g.1, Event.log_error g.1] }

/-! ## The command `autorun_delay` (cmd_autorun.c, lines 165 to 180) -/

/-- What `arg_parse` leaves for a command with one integer argument: the number of
errors and `ival[0]`, an `int`. -/
structure IntArgs where
  nerrors : Nat
  ival0 : Int
  deriving DecidableEq, Repr

/-- The argument of `vTaskDelay(ival[0] / portTICK_PERIOD_MS)`. The divisor has the
unsigned 32-bit type `TickType_t`, so `ival[0]` is converted to unsigned 32 bits before
the integer division. -/
def delayTicksOf (tickMs : Nat) (ival0 : Int) : Nat :=
  (ival0 % 4294967296).toNat / tickMs

/-- The command `autorun_delay`: the status returned and the events produced. -/
def fn_autorun_cmd_delay (tickMs : Nat) (args : IntArgs) : Int × List Event :=
  if args.nerrors ≠ 0 then (1, [Event.arg_print_errors])
  else (0, [Event.vTaskDelay (delayTicksOf tickMs args.ival0)])

/-! ## The command `iperf` (cmd_wifi.c, lines 288 to 392) -/

/-- The macros of `iperf.h` that `wifi_cmd_iperf` uses (the header is not part of the
sources at hand, so their values are parameters). -/
structure IperfConsts where
  IPERF_FLAG_CLIENT : Nat
  IPERF_FLAG_SERVER : Nat
  IPERF_FLAG_TCP : Nat
  IPERF_FLAG_UDP : Nat
  IPERF_DEFAULT_PORT : Nat
  IPERF_DEFAULT_INTERVAL : Nat
  IPERF_DEFAULT_TIME : Nat
  deriving DecidableEq, Repr

/-- The structure `iperf_cfg_t` handed to `iperf_start`: `flag`, `dip`, `sip`, `interval`
and `time` are unsigned 32-bit fields, `dport` and `sport` unsigned 16-bit fields. -/
structure iperf_cfg_t where
  flag : Nat
  dip : Nat
  sip : Nat
  dport : Nat
  sport : Nat
  interval : Nat
  time : Nat
  deriving DecidableEq, Repr

/-- What `arg_parse` leaves in `iperf_args`: the number of errors, the `count` of every
option and the values read; `dip` is what `ipaddr_addr(ip->sval[0])` returns. -/
structure IperfArgs where
  nerrors : Nat
  ip_count : Nat
  dip : Nat
  server_count : Nat
  udp_count : Nat
  port_count : Nat
  port_ival0 : Int
  interval_count : Nat
  interval_ival0 : Int
  time_count : Nat
  time_ival0 : Int
  abort_count : Nat
  deriving DecidableEq, Repr

/-- What `wifi_get_local_ip` reads: whether the mode is `WIFI_MODE_STA`, whether
`CONNECTED_BIT` is set in the event group, and the addresses of the two interfaces. -/
structure WifiState where
  mode_is_sta : Bool
  connected : Bool
  ip_ap : Nat
  ip_sta : Nat
  deriving DecidableEq, Repr

/-- The function `wifi_get_local_ip`. -/
def wifi_get_local_ip (w : WifiState) : Nat :=
  if w.mode_is_sta then
    if w.connected then w.ip_sta else 0
  else w.ip_ap

/-- The call into the iperf component that `wifi_cmd_iperf` makes, if any. -/
inductive IperfCall where
  | nothing
  | iperf_stop
  | iperf_start (cfg : iperf_cfg_t)
  deriving DecidableEq, Repr

/-- The ports `cfg.sport` and `cfg.dport` as lines 351 to 362 set them, for the value
`flag` of `cfg.flag` at that point. -/
def iperfPorts (k : IperfConsts) (a : IperfArgs) (flag : Nat) : Nat × Nat :=
  if a.port_count = 0 then (k.IPERF_DEFAULT_PORT, k.IPERF_DEFAULT_PORT)
  else if flag &&& k.IPERF_FLAG_SERVER ≠ 0 then
    ((a.port_ival0 % 65536).toNat, k.IPERF_DEFAULT_PORT)
  else (k.IPERF_DEFAULT_PORT, (a.port_ival0 % 65536).toNat)

/-- The value of `cfg.interval` as lines 364 to 371 set it. -/
def iperfInterval (k : IperfConsts) (a : IperfArgs) : Nat :=
  if a.interval_count = 0 then k.IPERF_DEFAULT_INTERVAL
  else if (a.interval_ival0 % 4294967296).toNat ≤ 0 then k.IPERF_DEFAULT_INTERVAL
  else (a.interval_ival0 % 4294967296).toNat

/-- The value of `cfg.time` as lines 373 to 380 set it. -/
def iperfTime (k : IperfConsts) (a : IperfArgs) : Nat :=
  if a.time_count = 0 then k.IPERF_DEFAULT_TIME
  else if (a.time_ival0 % 4294967296).toNat ≤ iperfInterval k a then iperfInterval k a
  else (a.time_ival0 % 4294967296).toNat

/-- The value of `cfg.flag` when `iperf_start` is called: `cfg` was zeroed, then one of
SERVER and CLIENT and one of TCP and UDP were or-ed in. -/
def iperfFlag (k : IperfConsts) (a : IperfArgs) : Nat :=
  (if a.ip_count = 0 then 0 ||| k.IPERF_FLAG_SERVER else 0 ||| k.IPERF_FLAG_CLIENT)
    ||| (if a.udp_count = 0 then k.IPERF_FLAG_TCP else k.IPERF_FLAG_UDP)

/-- The command `iperf`: the status returned (always 0) and the call it makes. -/
def wifi_cmd_iperf (k : IperfConsts) (w : WifiState) (a : IperfArgs) : Int × IperfCall :=
  if a.nerrors ≠ 0 then (0, IperfCall.nothing)
  else if a.abort_count ≠ 0 then (0, IperfCall.iperf_stop)
  else if (a.ip_count = 0 ∧ a.server_count = 0) ∨ (a.ip_count ≠ 0 ∧ a.server_count ≠ 0) then
    (0, IperfCall.nothing)
  else if wifi_get_local_ip w = 0 then (0, IperfCall.nothing)
  else
    (0, IperfCall.iperf_start
      { flag := iperfFlag k a,
        dip := if a.ip_count = 0 then 0 else a.dip,
        sip := wifi_get_local_ip w,
        sport := (iperfPorts k a (iperfFlag k a)).1,
        dport := (iperfPorts k a (iperfFlag k a)).2,
        interval := iperfInterval k a,
        time := iperfTime k a })

/-! ## Vocabulary of the store claims -/

/-- The code with which an event that is a storage call failed, if it did. The
`ESP_ERR_NVS_NOT_FOUND` of a read is the normal answer for an absent key, not a fault. -/
def storageFault : Event → Option Int
  | Event.nvs_open err => if err ≠ 0 then some err else none
  | Event.nvs_get_str err =>
    if err ≠ 0 ∧ err ≠ ESP_ERR_NVS_NOT_FOUND then some err else none
  | Event.nvs_set_str _ err => if err ≠ 0 then some err else none
  | Event.nvs_erase_key err => if err ≠ 0 then some err else none
  | Event.nvs_commit err => if err ≠ 0 then some err else none
  | _ => none

/-- Whether an event is a call of the NVS API. -/
def isStorageCall : Event → Bool
  | Event.nvs_open _ => true
  | Event.nvs_get_str _ => true
  | Event.nvs_set_str _ _ => true
  | Event.nvs_erase_key _ => true
  | Event.nvs_commit _ => true
  | Event.nvs_close => true
  | _ => false

/-- Whether an event is an `ESP_LOGE` line of the store functions. -/
def isErrorLog : Event → Bool
  | Event.log_error _ => true
  | _ => false

/-- Whether an event belongs to a countdown tick: the indicator line, the probe or
the delay. -/
def isCountdownTick : Event → Bool
  | Event.printf_count _ => true
  | Event.uart_rx_one_char _ => true
  | Event.vTaskDelay _ => true
  | _ => false

/-- Whether the flag word `flag` has a bit of the mask `m` set: `flag & m` in C. -/
def hasFlag (flag m : Nat) : Bool := flag &&& m != 0

/-- The four flag masks are non-empty and pairwise without a common bit. -/
def IperfConsts.disjointFlags (k : IperfConsts) : Prop :=
  k.IPERF_FLAG_CLIENT ≠ 0 ∧ k.IPERF_FLAG_SERVER ≠ 0 ∧ k.IPERF_FLAG_TCP ≠ 0
    ∧ k.IPERF_FLAG_UDP ≠ 0
    ∧ k.IPERF_FLAG_CLIENT &&& k.IPERF_FLAG_SERVER = 0
    ∧ k.IPERF_FLAG_TCP &&& k.IPERF_FLAG_UDP = 0
    ∧ k.IPERF_FLAG_TCP &&& k.IPERF_FLAG_SERVER = 0
    ∧ k.IPERF_FLAG_UDP &&& k.IPERF_FLAG_SERVER = 0
    ∧ k.IPERF_FLAG_TCP &&& k.IPERF_FLAG_CLIENT = 0
    ∧ k.IPERF_FLAG_UDP &&& k.IPERF_FLAG_CLIENT = 0

/-! ## Vocabulary of the countdown claims -/

/-- Whether a probe result is one of the bytes the countdown reacts to: line feed
(`0x0A`), carriage return (`0x0D`) or ETX (`0x03`, Ctrl-C). -/
def isInterrupt (r : Option Nat) : Bool :=
  r == some 10 || r == some 13 || r == some 3

/-- The console input with every byte other than CR, LF and ETX taken away. -/
def onlyInterrupts (uart : Nat → Option Nat) : Nat → Option Nat :=
  fun n => if isInterrupt (uart n) then uart n else none

/-- Milliseconds slept by a trace, for a tick period of `tickMs` milliseconds. -/
def sleptMs (tickMs : Nat) (tr : List Event) : Nat := (delays tr).sum * tickMs

/-! ## Vocabulary of the wait claims -/

/-- Whether a lifecycle state is one of the four in which `autorun_wait` keeps polling:
running, ready, blocked, suspended. -/
def isActive (ts : eTaskState) : Bool :=
  ts == eTaskState.eRunning || ts == eTaskState.eReady || ts == eTaskState.eBlocked
    || ts == eTaskState.eSuspended

/-- The events of `n` polls that are each followed by a delay of `ticks` ticks, the
`j`-th poll returning `state j`, and of a last poll returning `state n`. -/
def pollsThenReturn (ticks : Nat) (state : Nat → eTaskState) (n : Nat) : List Event :=
  ((List.range n).map (fun j => [Event.poll (state j), Event.vTaskDelay ticks])).flatten
    ++ [Event.poll (state n)]

/-! ## Sample oracles for concrete runs -/

/-- An engine for which every command succeeds. -/
def engineOk : Nat → List Nat → RunResult := fun _ _ => { err := 0, ret := 0 }

/-- An engine for which every command is unknown. -/
def engineUnknown : Nat → List Nat → RunResult :=
  fun _ _ => { err := ESP_ERR_NOT_FOUND, ret := 0 }

/-- An interactive input on which `linenoise` always returns NULL. -/
def noInput : Nat → Option (List Nat) := fun _ => none

/-- A console on which no byte ever arrives. -/
def uartSilent : Nat → Option Nat := fun _ => none

/-- A store in which no command list was ever saved. -/
def nvsEmpty : Nvs := { cmdlist := none, durable := none, sessions := 0, calls := 0 }

/-- The values the macros have in the `iperf.h` of the SDK example. -/
def iperfConsts : IperfConsts :=
  { IPERF_FLAG_CLIENT := 1, IPERF_FLAG_SERVER := 2, IPERF_FLAG_TCP := 4,
    IPERF_FLAG_UDP := 8, IPERF_DEFAULT_PORT := 5001, IPERF_DEFAULT_INTERVAL := 3,
    IPERF_DEFAULT_TIME := 30 }

/-- A station that is connected, with address 192.168.4.2 (little-endian word). -/
def wifiConnected : WifiState :=
  { mode_is_sta := true, connected := true, ip_ap := 0, ip_sta := 33859776 }

/-- The arguments of `iperf -s -p 6000`. -/
def iperfServerArgs : IperfArgs :=
  { nerrors := 0, ip_count := 0, dip := 0, server_count := 1, udp_count := 0,
    port_count := 1, port_ival0 := 6000, interval_count := 0, interval_ival0 := 0,
    time_count := 0, time_ival0 := 0, abort_count := 0 }

/-- The arguments of `iperf -c 192.168.4.1 -u -p 6000`. -/
def iperfClientArgs : IperfArgs :=
  { nerrors := 0, ip_count := 1, dip := 17082560, server_count := 0, udp_count := 1,
    port_count := 1, port_ival0 := 6000, interval_count := 0, interval_ival0 := 0,
    time_count := 0, time_ival0 := 0, abort_count := 0 }

/-- A store that holds the empty string as command list. -/
def nvsEmptyString : Nvs := { cmdlist := some [], durable := some [], sessions := 0, calls := 0 }

/-- A store that holds the command list `restart`. -/
def nvsRestart : Nvs :=
  { cmdlist := some (bytes "restart"), durable := some (bytes "restart"), sessions := 0,
    calls := 0 }

/-- A fault oracle that makes the `k`-th fallible NVS call fail with code `c`. -/
def faultAt (k : Nat) (c : Int) : Nat → Int := fun n => if n = k then c else 0

/-- A task registry snapshot with four tasks, two of them named `iperf_traffic`. -/
def sampleTasks : List TaskStatus_t :=
  [ { xHandle := 7, pcTaskName := bytes "iperf" ++ [0] },
    { xHandle := 8, pcTaskName := bytes "IPERF_TRAFFIC" ++ [0] },
    { xHandle := 9, pcTaskName := bytes "iperf_traffic" ++ [0, 120] },
    { xHandle := 10, pcTaskName := bytes "iperf_traffic" ++ [0] } ]

/-- A task that is seen running, then ready, then deleted. -/
def sampleStates : Nat → Nat → eTaskState :=
  fun _ n => if n = 0 then eTaskState.eRunning else if n = 1 then eTaskState.eReady
    else eTaskState.eDeleted

/-! ## Lemmas on C strings -/

theorem cstrOf_nil : cstrOf [] = [] := rfl

theorem cstrOf_cons_zero (m : List Nat) : cstrOf (0 :: m) = [] := by
  simp [cstrOf]

theorem cstrOf_cons_ne (b : Nat) (m : List Nat) (hb : b ≠ 0) :
    cstrOf (b :: m) = b :: cstrOf m := by
  simp [cstrOf, List.takeWhile_cons, hb]

theorem cstrOf_append_zero (a m : List Nat) (ha : ∀ b ∈ a, b ≠ 0) :
    cstrOf (a ++ 0 :: m) = a := by
  induction a with
  | nil => exact cstrOf_cons_zero m
  | cons x a ih =>
    have hx : x ≠ 0 := ha x (List.mem_cons_self x a)
    have ih1 := ih (fun b hb => ha b (List.mem_cons_of_mem x hb))
    simp only [List.cons_append]
    rw [cstrOf_cons_ne _ _ hx, ih1]

theorem cstrOf_append_cons (a m : List Nat) (c : Nat) (ha : ∀ b ∈ a, b ≠ 0) (hc : c ≠ 0) :
    cstrOf (a ++ c :: m) = a ++ c :: cstrOf m := by
  induction a with
  | nil => exact cstrOf_cons_ne c m hc
  | cons x a ih =>
    have hx : x ≠ 0 := ha x (List.mem_cons_self x a)
    have ih1 := ih (fun b hb => ha b (List.mem_cons_of_mem x hb))
    simp only [List.cons_append]
    rw [cstrOf_cons_ne _ _ hx, ih1]

theorem zero_not_mem_cstrOf (m : List Nat) : (0 : Nat) ∉ cstrOf m := by
  intro h
  have := List.mem_takeWhile_imp h
  simp at this

theorem cstrOf_of_no_zero (a : List Nat) (ha : ∀ b ∈ a, b ≠ 0) : cstrOf a = a := by
  induction a with
  | nil => rfl
  | cons x a ih =>
    rw [cstrOf_cons_ne _ _ (ha x (List.mem_cons_self x a)),
      ih (fun b hb => ha b (List.mem_cons_of_mem x hb))]

theorem cstrOf_idem (m : List Nat) : cstrOf (cstrOf m) = cstrOf m :=
  cstrOf_of_no_zero _ (fun _ hb h0 => zero_not_mem_cstrOf m (h0 ▸ hb))

theorem indexAux_none (c : Nat) :
    ∀ (m : List Nat) (off : Nat), indexAux c m off = none → c ∉ cstrOf m := by
  intro m
  induction m with
  | nil => intro _ _ h; simp [cstrOf] at h
  | cons b rest ih =>
    intro off h
    unfold indexAux at h
    by_cases hbc : b = c
    · simp [hbc] at h
    · by_cases hb0 : b = 0
      · subst hb0
        rw [cstrOf_cons_zero]
        simp
      · simp only [hbc, hb0, if_false] at h
        rw [cstrOf_cons_ne _ _ hb0]
        intro hmem
        rcases List.mem_cons.1 hmem with h1 | h1
        · exact hbc h1.symm
        · exact ih (off + 1) h h1

theorem indexAux_some (c : Nat) :
    ∀ (m : List Nat) (off q : Nat), indexAux c m off = some q →
      ∃ a m1, m = a ++ c :: m1 ∧ q = off + a.length ∧ ∀ b ∈ a, b ≠ c ∧ b ≠ 0 := by
  intro m
  induction m with
  | nil => intro off q h; simp [indexAux] at h
  | cons b rest ih =>
    intro off q h
    unfold indexAux at h
    by_cases hbc : b = c
    · simp only [hbc, if_true, Option.some.injEq] at h
      exact ⟨[], rest, by simp [hbc], by simp [h], by simp⟩
    · by_cases hb0 : b = 0
      · simp [hbc, hb0] at h
        exact absurd (hb0 ▸ h.1) hbc
      · simp only [hbc, hb0, if_false] at h
        obtain ⟨a, m1, hm, hq, ha⟩ := ih (off + 1) q h
        refine ⟨b :: a, m1, by simp [hm], by simp [hq]; omega, ?_⟩
        intro x hx
        rcases List.mem_cons.1 hx with h1 | h1
        · subst h1; exact ⟨hbc, hb0⟩
        · exact ha x h1

/-- Effect of overwriting the `;` found by `index` with NUL: the line read at the old
cursor is the segment before the `;`, and the string at the new cursor is the rest. -/
theorem cstr_after_poke (content : List Nat) (p : Nat) (a m1 : List Nat)
    (h : content.drop p = a ++ 59 :: m1) (ha : ∀ b ∈ a, b ≠ 59 ∧ b ≠ 0) :
    cstr (content.set (p + a.length) 0) p = a
      ∧ cstr (content.set (p + a.length) 0) (p + a.length + 1) = cstrOf m1
      ∧ cstr content p = a ++ 59 :: cstrOf m1 := by
  refine ⟨?_, ?_, ?_⟩
  · unfold cstr
    rw [← List.set_drop, h, List.set_append_right _ _ (le_refl _)]
    simp only [Nat.sub_self, List.set_cons_zero]
    exact cstrOf_append_zero a m1 (fun b hb => (ha b hb).2)
  · unfold cstr
    have hd : content.drop (p + a.length + 1) = (content.drop p).drop (a.length + 1) := by
      rw [List.drop_drop]
      congr 1
    rw [List.drop_set_of_lt _ _ (by omega), hd, h]
    simp
  · unfold cstr
    rw [h]
    exact cstrOf_append_cons a m1 59 (fun b hb => (ha b hb).2) (by decide)

/-! ## Lemmas on splitting -/

theorem splitOn_first (a rest : List Nat) (c : Nat) (ha : ∀ b ∈ a, b ≠ c) :
    (a ++ c :: rest).splitOn c = a :: rest.splitOn c := by
  unfold List.splitOn
  exact List.splitOnP_first (fun x => x == c) a (fun x hx => by simpa using ha x hx) c
    (by simp) rest

theorem splitOn_single (a : List Nat) (c : Nat) (ha : c ∉ a) : a.splitOn c = [a] := by
  unfold List.splitOn
  refine List.splitOnP_eq_single (fun x => x == c) a (fun x hx => ?_)
  have : x ≠ c := fun h => ha (h ▸ hx)
  simpa using this

theorem splitOn_ne_nil (a : List Nat) (c : Nat) : a.splitOn c ≠ [] := by
  unfold List.splitOn
  exact List.splitOnP_ne_nil _ _

theorem sep_not_mem_of_mem_splitOn (c : Nat) :
    ∀ (xs l : List Nat), l ∈ xs.splitOn c → c ∉ l := by
  intro xs
  induction xs with
  | nil =>
    intro l hl
    have : l = [] := by simpa [List.splitOn] using hl
    simp [this]
  | cons x xs ih =>
    intro l hl
    unfold List.splitOn at hl ih
    rw [List.splitOnP_cons] at hl
    by_cases hx : x = c
    · simp only [hx, beq_self_eq_true, if_true, List.mem_cons] at hl
      rcases hl with h1 | h1
      · simp [h1]
      · exact ih l h1
    · have hxb : (x == c) = false := by simpa using hx
      simp only [hxb] at hl
      cases hsp : List.splitOnP (fun x => x == c) xs with
      | nil => exact absurd hsp (List.splitOnP_ne_nil _ _)
      | cons hd tl =>
        rw [hsp] at hl ih
        simp only [List.modifyHead_cons, List.mem_cons, Bool.false_eq_true, if_false] at hl
        rcases hl with h1 | h1
        · subst h1
          intro hmem
          rcases List.mem_cons.1 hmem with h2 | h2
          · exact hx h2.symm
          · exact ih hd (List.mem_cons_self hd tl) h2
        · exact ih l (List.mem_cons_of_mem hd h1)

/-! ## Lemmas on the main loop -/

theorem runs_append (a b : List Event) : runs (a ++ b) = runs a ++ runs b := by
  simp [runs]

theorem linenoiseLines_append (a b : List Event) :
    linenoiseLines (a ++ b) = linenoiseLines a ++ linenoiseLines b := by
  simp [linenoiseLines]

theorem autorunLines_append (a b : List Event) :
    autorunLines (a ++ b) = autorunLines a ++ autorunLines b := by
  simp [autorunLines]

theorem runs_report (r : RunResult) : runs (report r) = [] := by
  unfold report
  split_ifs <;> rfl

theorem linenoiseLines_report (r : RunResult) : linenoiseLines (report r) = [] := by
  unfold report
  split_ifs <;> rfl

theorem autorunLines_report (r : RunResult) : autorunLines (report r) = [] := by
  unfold report
  split_ifs <;> rfl

/-- An iteration taken with a non-NULL cursor: it reads nothing from linenoise, hands
one line to the engine, and that line is the first `;`-segment of the string at the
cursor, the string at the new cursor being the remainder. -/
theorem mainIter_autorun (engine : Nat → List Nat → RunResult)
    (lnoise : Nat → Option (List Nat)) (s : LoopState) (p : Nat)
    (h : s.autorun_cmd = some p) :
    ∃ l, (mainIter engine lnoise s).2
          = [Event.printf_autorun l, Event.esp_console_run l] ++ report (engine s.nruns l)
      ∧ ((LoopState.autorun_cmd (mainIter engine lnoise s).1 = none
            ∧ (cstr s.content p).splitOn 59 = [l])
          ∨ ∃ q, LoopState.autorun_cmd (mainIter engine lnoise s).1 = some q
            ∧ (cstr s.content p).splitOn 59
                = l :: (cstr (mainIter engine lnoise s).1.content q).splitOn 59) := by
  cases hidx : index s.content p 59 with
  | none =>
    refine ⟨cstr s.content p, ?_, Or.inl ⟨?_, ?_⟩⟩
    · simp [mainIter, h, hidx]
    · simp [mainIter, h, hidx]
    · exact splitOn_single _ _ (indexAux_none 59 _ _ hidx)
  | some q =>
    obtain ⟨a, m1, hm, hq, ha⟩ := indexAux_some 59 _ _ _ hidx
    obtain ⟨h1, h2, h3⟩ := cstr_after_poke s.content p a m1 hm ha
    subst hq
    refine ⟨a, ?_, Or.inr ⟨p + a.length + 1, ?_, ?_⟩⟩
    · simp [mainIter, h, hidx, h1]
    · simp [mainIter, h, hidx]
    · have hc : (mainIter engine lnoise s).1.content = s.content.set (p + a.length) 0 := by
        simp [mainIter, h, hidx]
      rw [hc, h2, h3]
      exact splitOn_first a (cstrOf m1) 59 (fun b hb => (ha b hb).1)

/-- Once the cursor is NULL it stays NULL: every line comes from linenoise. -/
theorem mainLoop_interactive (engine : Nat → List Nat → RunResult)
    (lnoise : Nat → Option (List Nat)) :
    ∀ (fuel : Nat) (s : LoopState), s.autorun_cmd = none →
      runs (mainLoop engine lnoise fuel s) = linenoiseLines (mainLoop engine lnoise fuel s)
        ∧ autorunLines (mainLoop engine lnoise fuel s) = [] := by
  intro fuel
  induction fuel with
  | zero => intro s _; exact ⟨rfl, rfl⟩
  | succ n ih =>
    intro s h
    cases hl : lnoise s.nreads with
    | none =>
      have h1 : (mainIter engine lnoise s).2 = [Event.linenoise none] := by
        simp [mainIter, h, hl]
      have h2 : LoopState.autorun_cmd (mainIter engine lnoise s).1 = none := by
        simp [mainIter, h, hl]
      obtain ⟨ih1, ih2⟩ := ih _ h2
      simp only [mainLoop, runs_append, linenoiseLines_append, autorunLines_append, h1, ih1,
        ih2]
      exact ⟨rfl, rfl⟩
    | some l =>
      have h1 : (mainIter engine lnoise s).2
          = [Event.linenoise (some l), Event.linenoiseHistoryAdd l, Event.esp_console_run l]
            ++ report (engine s.nruns l) := by
        simp [mainIter, h, hl]
      have h2 : LoopState.autorun_cmd (mainIter engine lnoise s).1 = none := by
        simp [mainIter, h, hl]
      obtain ⟨ih1, ih2⟩ := ih _ h2
      simp only [mainLoop, runs_append, linenoiseLines_append, autorunLines_append, h1, ih1,
        ih2, runs_report, linenoiseLines_report, autorunLines_report]
      exact ⟨rfl, rfl⟩

/-- The autorun phase of the main loop: iteration by iteration it hands the
`;`-segments of the string at the cursor to the engine, then turns to linenoise. -/
theorem mainLoop_autorun (engine : Nat → List Nat → RunResult)
    (lnoise : Nat → Option (List Nat)) :
    ∀ (fuel : Nat) (s : LoopState) (p : Nat), s.autorun_cmd = some p →
      autorunLines (mainLoop engine lnoise fuel s)
          = ((cstr s.content p).splitOn 59).take fuel
        ∧ runs (mainLoop engine lnoise fuel s)
          = ((cstr s.content p).splitOn 59).take fuel
            ++ linenoiseLines (mainLoop engine lnoise fuel s)
        ∧ (fuel ≤ ((cstr s.content p).splitOn 59).length →
            linenoiseLines (mainLoop engine lnoise fuel s) = []) := by
  intro fuel
  induction fuel with
  | zero => intro s p _; exact ⟨rfl, rfl, fun _ => rfl⟩
  | succ n ih =>
    intro s p h
    obtain ⟨l, hev, hnext⟩ := mainIter_autorun engine lnoise s p h
    rcases hnext with ⟨hnone, hsplit⟩ | ⟨q, hq, hsplit⟩
    · obtain ⟨i1, i2⟩ := mainLoop_interactive engine lnoise n _ hnone
      simp only [mainLoop, runs_append, linenoiseLines_append, autorunLines_append, hev,
        runs_report, linenoiseLines_report, autorunLines_report, hsplit, i1, i2]
      refine ⟨?_, ?_, ?_⟩
      · simp [autorunLines, autorunLine]
      · simp [runs, runLine, linenoiseLines, readLine]
      · intro hle
        have hn : n = 0 := by simpa using hle
        subst hn
        simp [mainLoop, linenoiseLines, readLine]
    · obtain ⟨i1, i2, i3⟩ := ih _ q hq
      simp only [mainLoop, runs_append, linenoiseLines_append, autorunLines_append, hev,
        runs_report, linenoiseLines_report, autorunLines_report, hsplit, i1, i2,
        List.take_succ_cons]
      refine ⟨?_, ?_, ?_⟩
      · simp [autorunLines, autorunLine]
      · simp [runs, runLine, linenoiseLines, readLine]
      · intro hle
        have hn : n ≤ ((cstr (mainIter engine lnoise s).1.content q).splitOn 59).length := by
          simpa using hle
        simp [linenoiseLines, readLine, i3 hn]
        simpa [linenoiseLines] using i3 hn

/-- With as many iterations as the list has segments, the engine has received exactly
the segments. -/
theorem runs_dispatch_exact (engine : Nat → List Nat → RunResult)
    (lnoise : Nat → Option (List Nat)) (content : List Nat) :
    runs (dispatch engine lnoise ((cstr content 0).splitOn 59).length content (some 0))
      = (cstr content 0).splitOn 59 := by
  obtain ⟨_, h2, h3⟩ := mainLoop_autorun engine lnoise ((cstr content 0).splitOn 59).length
    { content := content, autorun_cmd := some 0, nruns := 0, nreads := 0 } 0 rfl
  unfold dispatch
  rw [h2, h3 (le_refl _)]
  simp

/-- The same for a buffer that holds the NUL-free `text`, its terminator and anything
after it. -/
theorem runs_dispatch_text (engine : Nat → List Nat → RunResult)
    (lnoise : Nat → Option (List Nat)) (text junk : List Nat) (segs : List (List Nat))
    (h0 : ∀ b ∈ text, b ≠ 0) (hs : text.splitOn 59 = segs) :
    runs (dispatch engine lnoise segs.length (text ++ 0 :: junk) (some 0)) = segs := by
  have hc : cstr (text ++ 0 :: junk) 0 = text := by
    simpa [cstr] using cstrOf_append_zero text junk h0
  have := runs_dispatch_exact engine lnoise (text ++ 0 :: junk)
  rw [hc, hs] at this
  exact this

/-- The lines the engine receives do not depend on what the engine returns. -/
theorem mainLoop_engine_irrelevant (e1 e2 : Nat → List Nat → RunResult)
    (lnoise : Nat → Option (List Nat)) :
    ∀ (fuel : Nat) (s : LoopState),
      runs (mainLoop e1 lnoise fuel s) = runs (mainLoop e2 lnoise fuel s)
        ∧ autorunLines (mainLoop e1 lnoise fuel s) = autorunLines (mainLoop e2 lnoise fuel s)
        ∧ linenoiseLines (mainLoop e1 lnoise fuel s)
            = linenoiseLines (mainLoop e2 lnoise fuel s) := by
  intro fuel
  induction fuel with
  | zero => intro s; exact ⟨rfl, rfl, rfl⟩
  | succ n ih =>
    intro s
    have hst : (mainIter e1 lnoise s).1 = (mainIter e2 lnoise s).1 := by
      unfold mainIter
      cases s.autorun_cmd with
      | none => cases lnoise s.nreads <;> rfl
      | some p => rfl
    have hev : runs (mainIter e1 lnoise s).2 = runs (mainIter e2 lnoise s).2
        ∧ autorunLines (mainIter e1 lnoise s).2 = autorunLines (mainIter e2 lnoise s).2
        ∧ linenoiseLines (mainIter e1 lnoise s).2
            = linenoiseLines (mainIter e2 lnoise s).2 := by
      unfold mainIter
      cases s.autorun_cmd with
      | none =>
        cases lnoise s.nreads with
        | none => exact ⟨rfl, rfl, rfl⟩
        | some l =>
          simp only [runs_append, autorunLines_append, linenoiseLines_append, runs_report,
            autorunLines_report, linenoiseLines_report, and_self]
      | some p =>
        simp only [runs_append, autorunLines_append, linenoiseLines_append, runs_report,
          autorunLines_report, linenoiseLines_report, and_self]
    obtain ⟨i1, i2, i3⟩ := ih (mainIter e2 lnoise s).1
    simp only [mainLoop, runs_append, autorunLines_append, linenoiseLines_append, hst, i1, i2,
      i3, hev.1, hev.2.1, hev.2.2, and_self]

/-! ## Lemmas on the countdown -/

theorem countdownLoop_step_quiet (tickMs : Nat) (uart : Nat → Option Nat) (cmdlist ix n : Nat)
    (h : isInterrupt (uart n) = false) :
    countdownLoop tickMs uart cmdlist (ix + 1) n
      = { outcome := (countdownLoop tickMs uart cmdlist ix (n + 1)).outcome,
          autorun_cmdlist := (countdownLoop tickMs uart cmdlist ix (n + 1)).autorun_cmdlist,
          trace := [Event.printf_count (ix + 1), Event.uart_rx_one_char (uart n),
                    Event.vTaskDelay (1000 / tickMs)]
                    ++ (countdownLoop tickMs uart cmdlist ix (n + 1)).trace } := by
  cases hu : uart n with
  | none => simp [countdownLoop, hu]
  | some ch =>
    rw [hu] at h
    have h1 : (ch ≠ 10 ∧ ch ≠ 13) ∧ ch ≠ 3 := by simpa [isInterrupt] using h
    simp [countdownLoop, hu, h1.1.1, h1.1.2, h1.2]

theorem countdownLoop_step_enter (tickMs : Nat) (uart : Nat → Option Nat) (cmdlist ix n : Nat)
    (ch : Nat) (h : uart n = some ch) (hc : ch = 13 ∨ ch = 10) :
    countdownLoop tickMs uart cmdlist (ix + 1) n
      = { outcome := Outcome.Skipped, autorun_cmdlist := some cmdlist,
          trace := [Event.printf_count (ix + 1), Event.uart_rx_one_char (some ch),
                    Event.printf_skipping] } := by
  rcases hc with hc | hc <;> simp [countdownLoop, h, hc]

theorem countdownLoop_step_etx (tickMs : Nat) (uart : Nat → Option Nat) (cmdlist ix n : Nat)
    (h : uart n = some 3) :
    countdownLoop tickMs uart cmdlist (ix + 1) n
      = { outcome := Outcome.Aborted, autorun_cmdlist := none,
          trace := [Event.printf_count (ix + 1), Event.uart_rx_one_char (some 3),
                    Event.printf_interrupted] } := by
  simp [countdownLoop, h]

/-- The countdown hands nothing to the engine and reads nothing from linenoise. -/
theorem countdownLoop_no_lines (tickMs : Nat) (uart : Nat → Option Nat) (cmdlist : Nat) :
    ∀ (ix n : Nat), runs (countdownLoop tickMs uart cmdlist ix n).trace = []
      ∧ autorunLines (countdownLoop tickMs uart cmdlist ix n).trace = []
      ∧ linenoiseLines (countdownLoop tickMs uart cmdlist ix n).trace = [] := by
  intro ix
  induction ix with
  | zero => intro n; exact ⟨rfl, rfl, rfl⟩
  | succ ix ih =>
    intro n
    obtain ⟨i1, i2, i3⟩ := ih (n + 1)
    by_cases hq : isInterrupt (uart n) = false
    · rw [countdownLoop_step_quiet _ _ _ _ _ hq]
      simp only [runs_append, autorunLines_append, linenoiseLines_append, i1, i2, i3]
      exact ⟨rfl, rfl, rfl⟩
    · cases hu : uart n with
      | none => simp [hu, isInterrupt] at hq
      | some ch =>
        by_cases hc : ch = 13 ∨ ch = 10
        · rw [countdownLoop_step_enter _ _ _ _ _ ch hu hc]
          exact ⟨rfl, rfl, rfl⟩
        · have h3 : ch = 3 := by
            simp only [not_or] at hc
            simp [hu, isInterrupt, hc.1, hc.2] at hq
            exact hq
          subst h3
          rw [countdownLoop_step_etx _ _ _ _ _ hu]
          exact ⟨rfl, rfl, rfl⟩

/-- After `i` ticks whose probes yield none of CR, LF, ETX the countdown has made `i`
probes and `i` delays, and goes on as the remaining ticks do. -/
theorem countdownLoop_quiet_ticks (tickMs : Nat) (uart : Nat → Option Nat) (cmdlist : Nat) :
    ∀ (i ix n : Nat), (∀ j < i, isInterrupt (uart (n + j)) = false) →
      (countdownLoop tickMs uart cmdlist (ix + i) n).outcome
          = (countdownLoop tickMs uart cmdlist ix (n + i)).outcome
        ∧ (countdownLoop tickMs uart cmdlist (ix + i) n).autorun_cmdlist
          = (countdownLoop tickMs uart cmdlist ix (n + i)).autorun_cmdlist
        ∧ probes (countdownLoop tickMs uart cmdlist (ix + i) n).trace
          = (List.range i).map (fun j => uart (n + j))
            ++ probes (countdownLoop tickMs uart cmdlist ix (n + i)).trace
        ∧ delays (countdownLoop tickMs uart cmdlist (ix + i) n).trace
          = List.replicate i (1000 / tickMs)
            ++ delays (countdownLoop tickMs uart cmdlist ix (n + i)).trace := by
  intro i
  induction i with
  | zero => intro ix n _; simp
  | succ i ih =>
    intro ix n h
    have h0 : isInterrupt (uart n) = false := by simpa using h 0 (Nat.succ_pos i)
    have hrest : ∀ j < i, isInterrupt (uart (n + 1 + j)) = false := by
      intro j hj
      have := h (j + 1) (Nat.succ_lt_succ hj)
      rwa [show n + (j + 1) = n + 1 + j by omega] at this
    obtain ⟨i1, i2, i3, i4⟩ := ih ix (n + 1) hrest
    have hidx : n + 1 + i = n + (i + 1) := by omega
    rw [hidx] at i1 i2 i3 i4
    rw [show ix + (i + 1) = (ix + i) + 1 by omega, countdownLoop_step_quiet _ _ _ _ _ h0]
    refine ⟨i1, i2, ?_, ?_⟩
    · have hr : (List.range (i + 1)).map (fun j => uart (n + j))
          = uart n :: (List.range i).map (fun j => uart (n + 1 + j)) := by
        rw [List.range_succ_eq_map]
        simp [List.map_map, Function.comp_def, Nat.add_assoc, Nat.add_comm 1]
      rw [hr]
      simp only [probes] at i3 ⊢
      simp [List.filterMap_cons, probeResult, i3]
    · simp only [delays] at i4 ⊢
      simp [List.filterMap_cons, delayTicks, i4, List.replicate_succ]

theorem sum_replicate_mul (i a b : Nat) (h : b ∣ a) :
    (List.replicate i (a / b)).sum * b = i * a := by
  rw [List.sum_replicate, smul_eq_mul, Nat.mul_assoc, Nat.div_mul_cancel h]

theorem isInterrupt_onlyInterrupts (uart : Nat → Option Nat) (n : Nat) :
    isInterrupt (onlyInterrupts uart n) = isInterrupt (uart n) := by
  unfold onlyInterrupts
  cases h : isInterrupt (uart n) with
  | false => simp [isInterrupt]
  | true => simp [h]

/-- Bytes other than CR, LF and ETX change nothing but the recorded probe results. -/
theorem countdownLoop_onlyInterrupts (tickMs : Nat) (uart : Nat → Option Nat) (cmdlist : Nat) :
    ∀ (ix n : Nat),
      (countdownLoop tickMs uart cmdlist ix n).outcome
          = (countdownLoop tickMs (onlyInterrupts uart) cmdlist ix n).outcome
        ∧ (countdownLoop tickMs uart cmdlist ix n).autorun_cmdlist
          = (countdownLoop tickMs (onlyInterrupts uart) cmdlist ix n).autorun_cmdlist
        ∧ delays (countdownLoop tickMs uart cmdlist ix n).trace
          = delays (countdownLoop tickMs (onlyInterrupts uart) cmdlist ix n).trace
        ∧ (probes (countdownLoop tickMs uart cmdlist ix n).trace).length
          = (probes (countdownLoop tickMs (onlyInterrupts uart) cmdlist ix n).trace).length := by
  intro ix
  induction ix with
  | zero => intro n; exact ⟨rfl, rfl, rfl, rfl⟩
  | succ ix ih =>
    intro n
    obtain ⟨i1, i2, i3, i4⟩ := ih (n + 1)
    by_cases hq : isInterrupt (uart n) = false
    · have hq2 : isInterrupt (onlyInterrupts uart n) = false := by
        rw [isInterrupt_onlyInterrupts]; exact hq
      rw [countdownLoop_step_quiet _ _ _ _ _ hq, countdownLoop_step_quiet _ _ _ _ _ hq2]
      refine ⟨i1, i2, ?_, ?_⟩
      · simp only [delays] at i3 ⊢
        simp [List.filterMap_cons, delayTicks, i3]
      · simp only [probes] at i4 ⊢
        simp [List.filterMap_cons, probeResult, i4]
    · have hsame : onlyInterrupts uart n = uart n := by
        unfold onlyInterrupts
        simp only [Bool.not_eq_false] at hq
        simp [hq]
      cases hu : uart n with
      | none => simp [hu, isInterrupt] at hq
      | some ch =>
        by_cases hc : ch = 13 ∨ ch = 10
        · rw [countdownLoop_step_enter _ _ _ _ _ ch hu hc,
            countdownLoop_step_enter _ _ _ _ _ ch (hsame.trans hu) hc]
          exact ⟨rfl, rfl, rfl, rfl⟩
        · have h3 : ch = 3 := by
            simp only [not_or] at hc
            simp [hu, isInterrupt, hc.1, hc.2] at hq
            exact hq
          subst h3
          rw [countdownLoop_step_etx _ _ _ _ _ hu,
            countdownLoop_step_etx _ _ _ _ _ (hsame.trans hu)]
          exact ⟨rfl, rfl, rfl, rfl⟩

/-- The trace of `app_main_from` for a loaded list, and what it hands to the engine. -/
theorem app_main_from_loaded (tickMs : Nat) (uart : Nat → Option Nat)
    (engine : Nat → List Nat → RunResult) (lnoise : Nat → Option (List Nat))
    (fuel : Nat) (content : List Nat) :
    app_main_from tickMs uart engine lnoise fuel (some content)
        = [Event.printf_attention (cstr content 0)] ++ (countdown tickMs uart).trace
          ++ [Event.printf_newlines, Event.console_ready]
          ++ dispatch engine lnoise fuel content (countdown tickMs uart).autorun_cmdlist
      ∧ runs (app_main_from tickMs uart engine lnoise fuel (some content))
        = runs (dispatch engine lnoise fuel content (countdown tickMs uart).autorun_cmdlist)
      ∧ autorunLines (app_main_from tickMs uart engine lnoise fuel (some content))
        = autorunLines
            (dispatch engine lnoise fuel content (countdown tickMs uart).autorun_cmdlist)
      ∧ linenoiseLines (app_main_from tickMs uart engine lnoise fuel (some content))
        = linenoiseLines
            (dispatch engine lnoise fuel content (countdown tickMs uart).autorun_cmdlist) := by
  obtain ⟨h1, h2, h3⟩ := countdownLoop_no_lines tickMs uart 0 5 0
  refine ⟨rfl, ?_, ?_, ?_⟩
  · simp only [app_main_from, runs_append, countdown, h1]
    simp [runs, runLine]
  · simp only [app_main_from, autorunLines_append, countdown, h2]
    simp [autorunLines, autorunLine]
  · simp only [app_main_from, linenoiseLines_append, countdown, h3]
    simp [linenoiseLines, readLine]

/-! ## Lemmas on the task lookup and the wait loop -/

theorem strcmp_eq_zero_iff : ∀ (a b : List Nat), strcmp a b = 0 ↔ cstrOf a = cstrOf b := by
  intro a
  induction a with
  | nil =>
    intro b
    cases b with
    | nil => simp [strcmp]
    | cons y bs =>
      by_cases hy : y = 0
      · subst hy; simp [strcmp, cstrOf_cons_zero, cstrOf_nil]
      · simp [strcmp, cstrOf_cons_ne _ _ hy, cstrOf_nil, hy]
  | cons x as ih =>
    intro b
    cases b with
    | nil =>
      by_cases hx : x = 0
      · subst hx; simp [strcmp, cstrOf_cons_zero, cstrOf_nil]
      · simp [strcmp, cstrOf_cons_ne _ _ hx, cstrOf_nil, hx]
    | cons y bs =>
      by_cases hxy : x = y
      · subst hxy
        by_cases hx : x = 0
        · subst hx; simp [strcmp, cstrOf_cons_zero]
        · simp [strcmp, hx, cstrOf_cons_ne _ _ hx, ih bs]
      · have hne : (x : Int) - (y : Int) ≠ 0 := by omega
        by_cases hx : x = 0
        · have hy : y ≠ 0 := fun h => hxy (hx.trans h.symm)
          simp [strcmp, hxy, hne, hx, cstrOf_cons_zero, cstrOf_cons_ne _ _ hy]
          omega
        · by_cases hy : y = 0
          · simp [strcmp, hxy, hne, hy, cstrOf_cons_zero, cstrOf_cons_ne _ _ hx]
            omega
          · simp [strcmp, hxy, hne, cstrOf_cons_ne _ _ hx, cstrOf_cons_ne _ _ hy]

theorem scanTasks_no_match (taskname : List Nat) :
    ∀ snapshot : List TaskStatus_t,
      (∀ t ∈ snapshot, cstrOf t.pcTaskName ≠ cstrOf taskname) →
        scanTasks taskname snapshot = 0 := by
  intro snapshot
  induction snapshot with
  | nil => intro _; rfl
  | cons t rest ih =>
    intro h
    have ht : ¬ strcmp t.pcTaskName taskname = 0 := by
      rw [strcmp_eq_zero_iff]; exact h t (List.mem_cons_self t rest)
    simp only [scanTasks, ht, if_false]
    exact ih (fun u hu => h u (List.mem_cons_of_mem t hu))

theorem scanTasks_first_match (taskname : List Nat) (t : TaskStatus_t)
    (post : List TaskStatus_t) (ht : cstrOf t.pcTaskName = cstrOf taskname) :
    ∀ pre : List TaskStatus_t, (∀ u ∈ pre, cstrOf u.pcTaskName ≠ cstrOf taskname) →
      scanTasks taskname (pre ++ t :: post) = t.xHandle := by
  intro pre
  induction pre with
  | nil =>
    intro _
    have h0 : strcmp t.pcTaskName taskname = 0 := (strcmp_eq_zero_iff _ _).2 ht
    simp [scanTasks, h0]
  | cons u rest ih =>
    intro h
    have hu : ¬ strcmp u.pcTaskName taskname = 0 := by
      rw [strcmp_eq_zero_iff]; exact h u (List.mem_cons_self u rest)
    simp only [List.cons_append, scanTasks, hu, if_false]
    exact ih (fun v hv => h v (List.mem_cons_of_mem u hv))

theorem scanTasks_zero_iff (taskname : List Nat) :
    ∀ snapshot : List TaskStatus_t, (∀ t ∈ snapshot, t.xHandle ≠ 0) →
      (scanTasks taskname snapshot = 0
        ↔ ∀ t ∈ snapshot, cstrOf t.pcTaskName ≠ cstrOf taskname) := by
  intro snapshot
  induction snapshot with
  | nil => intro _; simp [scanTasks]
  | cons t rest ih =>
    intro hwf
    have ih1 := ih (fun u hu => hwf u (List.mem_cons_of_mem t hu))
    by_cases ht : strcmp t.pcTaskName taskname = 0
    · have hname := (strcmp_eq_zero_iff _ _).1 ht
      simp only [scanTasks, ht, if_true]
      constructor
      · intro h0; exact absurd h0 (hwf t (List.mem_cons_self t rest))
      · intro h; exact absurd hname (h t (List.mem_cons_self t rest))
    · have hname : cstrOf t.pcTaskName ≠ cstrOf taskname :=
        fun h => ht ((strcmp_eq_zero_iff _ _).2 h)
      simp only [scanTasks, ht, if_false, ih1, List.mem_cons, forall_eq_or_imp, hname,
        ne_eq, not_false_eq_true, true_and]

theorem waitLoop_step_active (tickMs : Nat) (state : Nat → eTaskState) (fuel m : Nat)
    (h : isActive (state m) = true) :
    waitLoop tickMs state (fuel + 1) m
      = (waitLoop tickMs state fuel (m + 1)).map
          (fun tr => [Event.poll (state m), Event.vTaskDelay (100 / tickMs)] ++ tr) := by
  have hc : state m = eTaskState.eRunning ∨ state m = eTaskState.eReady
      ∨ state m = eTaskState.eBlocked ∨ state m = eTaskState.eSuspended := by
    simpa [isActive, or_assoc] using h
  simp only [waitLoop, hc, if_true]

theorem waitLoop_step_terminal (tickMs : Nat) (state : Nat → eTaskState) (fuel m : Nat)
    (h : isActive (state m) = false) :
    waitLoop tickMs state (fuel + 1) m = some [Event.poll (state m)] := by
  have hc : ¬ (state m = eTaskState.eRunning ∨ state m = eTaskState.eReady
      ∨ state m = eTaskState.eBlocked ∨ state m = eTaskState.eSuspended) := by
    intro hcon
    rcases hcon with h1 | h1 | h1 | h1 <;> simp [isActive, h1] at h
  simp only [waitLoop, hc, if_false]

/-- The wait loop returns at the first poll that finds a state outside the four. -/
theorem waitLoop_returns (tickMs : Nat) (state : Nat → eTaskState) :
    ∀ (n fuel m : Nat), (∀ j < n, isActive (state (m + j)) = true) →
      isActive (state (m + n)) = false → n < fuel →
      waitLoop tickMs state fuel m
        = some (pollsThenReturn (100 / tickMs) (fun j => state (m + j)) n) := by
  intro n
  induction n with
  | zero =>
    intro fuel m _ hterm hfuel
    obtain ⟨f, rfl⟩ : ∃ f, fuel = f + 1 := ⟨fuel - 1, by omega⟩
    rw [waitLoop_step_terminal _ _ _ _ (by simpa using hterm)]
    simp [pollsThenReturn]
  | succ n ih =>
    intro fuel m hact hterm hfuel
    obtain ⟨f, rfl⟩ : ∃ f, fuel = f + 1 := ⟨fuel - 1, by omega⟩
    have h0 : isActive (state m) = true := by simpa using hact 0 (Nat.succ_pos n)
    have hact1 : ∀ j < n, isActive (state (m + 1 + j)) = true := by
      intro j hj
      have := hact (j + 1) (Nat.succ_lt_succ hj)
      rwa [show m + (j + 1) = m + 1 + j by omega] at this
    have hterm1 : isActive (state (m + 1 + n)) = false := by
      rwa [show m + (n + 1) = m + 1 + n by omega] at hterm
    rw [waitLoop_step_active _ _ _ _ h0, ih f (m + 1) hact1 hterm1 (by omega)]
    simp only [Option.map_some', pollsThenReturn, List.range_succ_eq_map, List.map_cons,
      List.map_map, List.flatten_cons, Nat.add_zero, Option.some.injEq]
    simp [Function.comp_def, Nat.add_assoc, Nat.add_comm 1]

/-- While every poll finds one of the four states the wait loop does not return. -/
theorem waitLoop_blocks (tickMs : Nat) (state : Nat → eTaskState) :
    ∀ (fuel m : Nat), (∀ j < fuel, isActive (state (m + j)) = true) →
      waitLoop tickMs state fuel m = none := by
  intro fuel
  induction fuel with
  | zero => intro m _; rfl
  | succ f ih =>
    intro m hact
    have h0 : isActive (state m) = true := by simpa using hact 0 (Nat.succ_pos f)
    have hact1 : ∀ j < f, isActive (state (m + 1 + j)) = true := by
      intro j hj
      have := hact (j + 1) (Nat.succ_lt_succ hj)
      rwa [show m + (j + 1) = m + 1 + j by omega] at this
    rw [waitLoop_step_active _ _ _ _ h0, ih (m + 1) hact1]
    rfl

theorem polls_pollsThenReturn (ticks : Nat) (state : Nat → eTaskState) :
    ∀ n : Nat, polls (pollsThenReturn ticks state n) = (List.range (n + 1)).map state
      ∧ delays (pollsThenReturn ticks state n) = List.replicate n ticks := by
  intro n
  induction n with
  | zero => simp [pollsThenReturn, polls, pollState, delays, delayTicks, List.range_succ]
  | succ n ih =>
    obtain ⟨i1, i2⟩ := ih
    have hp : pollsThenReturn ticks state (n + 1)
        = ((List.range n).map
              (fun j => [Event.poll (state j), Event.vTaskDelay ticks])).flatten
            ++ [Event.poll (state n), Event.vTaskDelay ticks, Event.poll (state (n + 1))] := by
      simp [pollsThenReturn, List.range_succ]
    have hq : pollsThenReturn ticks state n
        = ((List.range n).map
              (fun j => [Event.poll (state j), Event.vTaskDelay ticks])).flatten
            ++ [Event.poll (state n)] := rfl
    rw [hq] at i1 i2
    simp only [polls, delays, List.filterMap_append] at i1 i2 ⊢
    rw [hp]
    simp only [List.filterMap_append]
    constructor
    · have e1 : List.filterMap pollState
          [Event.poll (state n), Event.vTaskDelay ticks, Event.poll (state (n + 1))]
          = List.filterMap pollState [Event.poll (state n)] ++ [state (n + 1)] := by
        simp [pollState]
      rw [e1, ← List.append_assoc, i1, List.range_succ (n + 1), List.map_append]
      simp
    · have e2 : List.filterMap delayTicks
          [Event.poll (state n), Event.vTaskDelay ticks, Event.poll (state (n + 1))]
          = List.filterMap delayTicks [Event.poll (state n)] ++ [ticks] := by
        simp [delayTicks]
      rw [e2, ← List.append_assoc, i2, List.replicate_succ']

/-! ## Lemmas on the boot sequence -/

theorem report_no_ticks (r : RunResult) : (report r).filter isCountdownTick = [] := by
  unfold report
  split_ifs <;> rfl

/-- The main loop produces no countdown tick. -/
theorem mainLoop_no_ticks (engine : Nat → List Nat → RunResult)
    (lnoise : Nat → Option (List Nat)) :
    ∀ (fuel : Nat) (s : LoopState),
      (mainLoop engine lnoise fuel s).filter isCountdownTick = [] := by
  intro fuel
  induction fuel with
  | zero => intro s; rfl
  | succ n ih =>
    intro s
    have hev : (mainIter engine lnoise s).2.filter isCountdownTick = [] := by
      unfold mainIter
      cases s.autorun_cmd with
      | none =>
        cases lnoise s.nreads with
        | none => rfl
        | some l => simp [List.filter_append, report_no_ticks, isCountdownTick]
      | some p => simp [List.filter_append, report_no_ticks, isCountdownTick]
    simp only [mainLoop, List.filter_append, hev, ih, List.append_nil]

/-- The load produces no countdown tick. -/
theorem fn_autorun_get_no_ticks (fault : Nat → Int) (s : Nvs) :
    (fn_autorun_get fault s).trace.filter isCountdownTick = [] := by
  unfold fn_autorun_get
  simp only []
  split_ifs <;> rfl

theorem nvs_open_cmdlist (fault : Nat → Int) (s : Nvs) :
    (nvs_open fault s).2.cmdlist = s.cmdlist := by
  unfold nvs_open
  split_ifs <;> rfl

/-- A read of an absent key never reports success. -/
theorem nvs_get_str_absent (fault : Nat → Int) (s : Nvs) (out : List Nat) (n : Nat)
    (hs : s.cmdlist = none) : (nvs_get_str fault s out n).1 ≠ ESP_OK := by
  unfold nvs_get_str
  split_ifs with h
  · simpa [ESP_OK] using h
  · simp [hs, ESP_OK, ESP_ERR_NVS_NOT_FOUND]

/-- The countdown always starts with the indicator line for 5 and a probe. -/
theorem countdown_starts (tickMs : Nat) (uart : Nat → Option Nat) :
    ∃ rest, (countdown tickMs uart).trace
      = Event.printf_count 5 :: Event.uart_rx_one_char (uart 0) :: rest := by
  unfold countdown
  by_cases hq : isInterrupt (uart 0) = false
  · rw [countdownLoop_step_quiet _ _ _ _ _ hq]
    exact ⟨_, rfl⟩
  · cases hu : uart 0 with
    | none => simp [hu, isInterrupt] at hq
    | some ch =>
      by_cases hc : ch = 13 ∨ ch = 10
      · rw [countdownLoop_step_enter _ _ _ _ _ ch hu hc]
        exact ⟨_, rfl⟩
      · have h3 : ch = 3 := by
          simp only [not_or] at hc
          simp [hu, isInterrupt, hc.1, hc.2] at hq
          exact hq
        subst h3
        rw [countdownLoop_step_etx _ _ _ _ _ hu]
        exact ⟨_, rfl⟩

/-! ## Lemmas on the flag word of `iperf` -/

/-- Which masks show in the flag word that `wifi_cmd_iperf` builds. -/
theorem hasFlag_iperfFlag (k : IperfConsts) (a : IperfArgs) (hk : k.disjointFlags) :
    (hasFlag (iperfFlag k a) k.IPERF_FLAG_SERVER = true ↔ a.ip_count = 0)
      ∧ (hasFlag (iperfFlag k a) k.IPERF_FLAG_CLIENT = true ↔ a.ip_count ≠ 0)
      ∧ (hasFlag (iperfFlag k a) k.IPERF_FLAG_TCP = true ↔ a.udp_count = 0)
      ∧ (hasFlag (iperfFlag k a) k.IPERF_FLAG_UDP = true ↔ a.udp_count ≠ 0) := by
  obtain ⟨c0, s0, t0, u0, cs, tu, ts, us, tc, uc⟩ := hk
  have sc : k.IPERF_FLAG_SERVER &&& k.IPERF_FLAG_CLIENT = 0 := by rw [Nat.and_comm]; exact cs
  have ut : k.IPERF_FLAG_UDP &&& k.IPERF_FLAG_TCP = 0 := by rw [Nat.and_comm]; exact tu
  have st : k.IPERF_FLAG_SERVER &&& k.IPERF_FLAG_TCP = 0 := by rw [Nat.and_comm]; exact ts
  have su : k.IPERF_FLAG_SERVER &&& k.IPERF_FLAG_UDP = 0 := by rw [Nat.and_comm]; exact us
  have ct : k.IPERF_FLAG_CLIENT &&& k.IPERF_FLAG_TCP = 0 := by rw [Nat.and_comm]; exact tc
  have cu : k.IPERF_FLAG_CLIENT &&& k.IPERF_FLAG_UDP = 0 := by rw [Nat.and_comm]; exact uc
  by_cases hip : a.ip_count = 0 <;> by_cases hudp : a.udp_count = 0 <;>
    simp [hasFlag, iperfFlag, hip, hudp, Nat.and_distrib_right, c0, s0, t0, u0, cs, tu,
      ts, us, tc, uc, sc, ut, st, su, ct, cu]

/-! ## The dispatcher -/

/-- C1. Entered with the cursor at the start of the list text (the C string held by
`content`), the main loop hands to `esp_console_run`, in order, the text split at every
`;` with empty segments kept: after `fuel` iterations the engine has received the first
`fuel` segments followed by what was read from linenoise, and after as many iterations
as there are segments it has received exactly the segments. A text without `;` gives the
single entry equal to the whole text, and the four lists of the specification give the
stated sequences. -/
theorem C1_dispatch_splits_at_semicolons (engine : Nat → List Nat → RunResult)
    (lnoise : Nat → Option (List Nat)) :
    (∀ (content : List Nat) (fuel : Nat),
        runs (dispatch engine lnoise fuel content (some 0))
            = ((cstr content 0).splitOn 59).take fuel
              ++ linenoiseLines (dispatch engine lnoise fuel content (some 0))
          ∧ autorunLines (dispatch engine lnoise fuel content (some 0))
            = ((cstr content 0).splitOn 59).take fuel)
      ∧ (∀ content : List Nat,
          runs (dispatch engine lnoise ((cstr content 0).splitOn 59).length content (some 0))
            = (cstr content 0).splitOn 59)
      ∧ (∀ content : List Nat, 59 ∉ cstr content 0 →
          runs (dispatch engine lnoise 1 content (some 0)) = [cstr content 0])
      ∧ (∀ junk : List Nat,
          runs (dispatch engine lnoise 3 (bytes "a;b;c" ++ 0 :: junk) (some 0))
            = [bytes "a", bytes "b", bytes "c"])
      ∧ (∀ junk : List Nat,
          runs (dispatch engine lnoise 3 (bytes "a;;b" ++ 0 :: junk) (some 0))
            = [bytes "a", [], bytes "b"])
      ∧ (∀ junk : List Nat,
          runs (dispatch engine lnoise 2 (bytes "a;" ++ 0 :: junk) (some 0))
            = [bytes "a", []])
      ∧ (∀ junk : List Nat,
          runs (dispatch engine lnoise 3
              (bytes "autorun_delay 100; autorun_wait worker; restart" ++ 0 :: junk) (some 0))
            = [bytes "autorun_delay 100", bytes " autorun_wait worker", bytes " restart"]) := by
  refine ⟨?_, ?_, ?_, ?_, ?_, ?_, ?_⟩
  · intro content fuel
    obtain ⟨h1, h2, _⟩ := mainLoop_autorun engine lnoise fuel
      { content := content, autorun_cmd := some 0, nruns := 0, nreads := 0 } 0 rfl
    exact ⟨h2, h1⟩
  · exact runs_dispatch_exact engine lnoise
  · intro content hno
    have h := runs_dispatch_exact engine lnoise content
    rw [splitOn_single _ _ hno] at h
    exact h
  · intro junk
    exact runs_dispatch_text engine lnoise (bytes "a;b;c") junk
      [bytes "a", bytes "b", bytes "c"] (by decide) (by decide)
  · intro junk
    exact runs_dispatch_text engine lnoise (bytes "a;;b") junk
      [bytes "a", [], bytes "b"] (by decide) (by decide)
  · intro junk
    exact runs_dispatch_text engine lnoise (bytes "a;") junk
      [bytes "a", []] (by decide) (by decide)
  · intro junk
    exact runs_dispatch_text engine lnoise
      (bytes "autorun_delay 100; autorun_wait worker; restart") junk
      [bytes "autorun_delay 100", bytes " autorun_wait worker", bytes " restart"]
      (by decide) (by decide)

/-- Witness of C1: the list `restart`, which has no `;`, is dispatched as one line, also
when the engine does not know the command. -/
theorem C1_dispatch_splits_at_semicolons_witness :
    59 ∉ cstr (bytes "restart" ++ [0]) 0
      ∧ runs (dispatch engineUnknown noInput 1 (bytes "restart" ++ [0]) (some 0))
          = [cstr (bytes "restart" ++ [0]) 0] :=
  ⟨by decide,
    (C1_dispatch_splits_at_semicolons engineUnknown noInput).2.2.1
      (bytes "restart" ++ [0]) (by decide)⟩

/-- C2. Every command line of the list is dispatched verbatim: with `n` the number of
lines of the list, the lines the engine has received after `n` iterations, joined with
`;`, are the list text byte for byte, none of them contains `;`, and the same holds for
the lines announced as autorun after any larger number of iterations. -/
theorem C2_dispatch_verbatim (engine : Nat → List Nat → RunResult)
    (lnoise : Nat → Option (List Nat)) (content : List Nat) :
    [59].intercalate
        (runs (dispatch engine lnoise ((cstr content 0).splitOn 59).length content (some 0)))
        = cstr content 0
      ∧ (∀ l ∈ runs (dispatch engine lnoise ((cstr content 0).splitOn 59).length content
            (some 0)), 59 ∉ l)
      ∧ (∀ fuel : Nat, ((cstr content 0).splitOn 59).length ≤ fuel →
          [59].intercalate (autorunLines (dispatch engine lnoise fuel content (some 0)))
              = cstr content 0
            ∧ ∀ l ∈ autorunLines (dispatch engine lnoise fuel content (some 0)), 59 ∉ l) := by
  have hjoin : [59].intercalate ((cstr content 0).splitOn 59) = cstr content 0 :=
    List.intercalate_splitOn (cstr content 0) 59
  refine ⟨?_, ?_, ?_⟩
  · rw [runs_dispatch_exact]
    exact hjoin
  · rw [runs_dispatch_exact]
    exact sep_not_mem_of_mem_splitOn 59 _
  · intro fuel hfuel
    obtain ⟨h1, _, _⟩ := mainLoop_autorun engine lnoise fuel
      { content := content, autorun_cmd := some 0, nruns := 0, nreads := 0 } 0 rfl
    have h : autorunLines (dispatch engine lnoise fuel content (some 0))
        = (cstr content 0).splitOn 59 := by
      unfold dispatch
      rw [h1]
      exact List.take_of_length_le hfuel
    rw [h]
    exact ⟨hjoin, sep_not_mem_of_mem_splitOn 59 _⟩

/-- Witness of C2: the leading blank of the second line of `a; b` reaches the engine,
and that line holds no `;`. -/
theorem C2_dispatch_verbatim_witness :
    bytes " b" ∈ runs (dispatch engineOk noInput
        ((cstr (bytes "a; b" ++ [0]) 0).splitOn 59).length (bytes "a; b" ++ [0]) (some 0))
      ∧ 59 ∉ bytes " b" :=
  ⟨by decide,
    (C2_dispatch_verbatim engineOk noInput (bytes "a; b" ++ [0])).2.1 (bytes " b")
      (by decide)⟩

/-- C3. Whatever the engine returns for the lines it is given (success, a non-zero
status, unknown command, internal error), the main loop hands it the same sequence of
command lines: two engines receive the same lines, and an engine that fails every
command still receives every segment of the list. -/
theorem C3_dispatch_continues_after_failure (e1 e2 : Nat → List Nat → RunResult)
    (lnoise : Nat → Option (List Nat)) (content : List Nat) (fuel : Nat)
    (autorun_cmdlist : Option Nat) :
    runs (dispatch e1 lnoise fuel content autorun_cmdlist)
        = runs (dispatch e2 lnoise fuel content autorun_cmdlist)
      ∧ autorunLines (dispatch e1 lnoise fuel content autorun_cmdlist)
        = autorunLines (dispatch e2 lnoise fuel content autorun_cmdlist)
      ∧ runs (dispatch e1 lnoise ((cstr content 0).splitOn 59).length content (some 0))
        = (cstr content 0).splitOn 59 := by
  obtain ⟨h1, h2, _⟩ := mainLoop_engine_irrelevant e1 e2 lnoise fuel
    { content := content, autorun_cmd := autorun_cmdlist, nruns := 0, nreads := 0 }
  exact ⟨h1, h2, runs_dispatch_exact e1 lnoise content⟩

/-! ## The countdown -/

/-- C4. When the first of the bytes CR, LF, ETX met by the probes of the five ticks is
ETX (probe `k`, the earlier probes meeting none of the three), the countdown ends
`Aborted` with `autorun_cmdlist` set to NULL; for every loaded list the main loop is then
entered with a NULL cursor: no line is announced as autorun, every line the engine
receives was read from linenoise, and the first thing the main loop does is to call
linenoise. -/
theorem C4_ctrl_c_aborts_autorun (tickMs : Nat) (uart : Nat → Option Nat)
    (engine : Nat → List Nat → RunResult) (lnoise : Nat → Option (List Nat))
    (content : List Nat) (fuel k : Nat) (hk : k < 5)
    (hpre : ∀ j < k, isInterrupt (uart j) = false) (hetx : uart k = some 3) :
    (countdown tickMs uart).outcome = Outcome.Aborted
      ∧ (countdown tickMs uart).autorun_cmdlist = none
      ∧ app_main_from tickMs uart engine lnoise fuel (some content)
        = [Event.printf_attention (cstr content 0)] ++ (countdown tickMs uart).trace
          ++ [Event.printf_newlines, Event.console_ready]
          ++ dispatch engine lnoise fuel content none
      ∧ autorunLines (app_main_from tickMs uart engine lnoise fuel (some content)) = []
      ∧ runs (app_main_from tickMs uart engine lnoise fuel (some content))
        = linenoiseLines (app_main_from tickMs uart engine lnoise fuel (some content))
      ∧ (dispatch engine lnoise (fuel + 1) content none).head?
        = some (Event.linenoise (lnoise 0)) := by
  have hq := countdownLoop_quiet_ticks tickMs uart 0 k (5 - k) 0 (by simpa using hpre)
  have h5 : 5 - k + k = 5 := by omega
  have h4 : 5 - k = (4 - k) + 1 := by omega
  rw [h5, Nat.zero_add, h4, countdownLoop_step_etx _ _ _ _ _ hetx] at hq
  obtain ⟨q1, q2, _, _⟩ := hq
  have hout : (countdown tickMs uart).outcome = Outcome.Aborted := q1
  have hcmd : (countdown tickMs uart).autorun_cmdlist = none := q2
  obtain ⟨a1, a2, a3, a4⟩ := app_main_from_loaded tickMs uart engine lnoise fuel content
  rw [hcmd] at a1 a2 a3 a4
  obtain ⟨m1, m2⟩ := mainLoop_interactive engine lnoise fuel
    { content := content, autorun_cmd := none, nruns := 0, nreads := 0 } rfl
  refine ⟨hout, hcmd, a1, ?_, ?_, ?_⟩
  · rw [a3]; exact m2
  · rw [a2, a4]; exact m1
  · cases hl : lnoise 0 with
    | none => simp [dispatch, mainLoop, mainIter, hl]
    | some l => simp [dispatch, mainLoop, mainIter, hl]

/-- Witness of C4: Ctrl-C at the third tick, after a tick without input and a tick with
the byte `x`. -/
theorem C4_ctrl_c_aborts_autorun_witness :
    (countdown 10 (fun n => if n = 1 then some 120 else if n = 2 then some 3 else none)).outcome
        = Outcome.Aborted
      ∧ runs (app_main_from 10
          (fun n => if n = 1 then some 120 else if n = 2 then some 3 else none)
          engineOk noInput 4 (some (bytes "restart" ++ [0]))) = [] := by
  have h := C4_ctrl_c_aborts_autorun 10
    (fun n => if n = 1 then some 120 else if n = 2 then some 3 else none)
    engineOk noInput (bytes "restart" ++ [0]) 4 2 (by decide) (by decide) (by decide)
  exact ⟨h.1, by decide⟩

/-- C5. For `k` from 1 to 5, when the probes of ticks 1 to `k - 1` meet none of CR, LF,
ETX and the probe of tick `k` yields CR or LF, the countdown ends `Skipped` at tick `k`:
it has made exactly `k` probes (those of ticks 1 to `k`) and `k - 1` delays, each of
`1000 / portTICK_PERIOD_MS` ticks, which is `k - 1` seconds when the tick period divides
1000 ms; `autorun_cmdlist` still points to the loaded list and the main loop is entered
with it, so that it dispatches the segments of the list. -/
theorem C5_enter_skips_countdown (tickMs : Nat) (uart : Nat → Option Nat)
    (engine : Nat → List Nat → RunResult) (lnoise : Nat → Option (List Nat))
    (content : List Nat) (fuel k c : Nat) (hk1 : 1 ≤ k) (hk5 : k ≤ 5)
    (hpre : ∀ j, j + 1 < k → isInterrupt (uart j) = false)
    (hc : uart (k - 1) = some c) (hcr : c = 13 ∨ c = 10) :
    (countdown tickMs uart).outcome = Outcome.Skipped
      ∧ probes (countdown tickMs uart).trace = (List.range k).map uart
      ∧ (probes (countdown tickMs uart).trace).length = k
      ∧ delays (countdown tickMs uart).trace = List.replicate (k - 1) (1000 / tickMs)
      ∧ (tickMs ∣ 1000 → sleptMs tickMs (countdown tickMs uart).trace = (k - 1) * 1000)
      ∧ (countdown tickMs uart).autorun_cmdlist = some 0
      ∧ app_main_from tickMs uart engine lnoise fuel (some content)
        = [Event.printf_attention (cstr content 0)] ++ (countdown tickMs uart).trace
          ++ [Event.printf_newlines, Event.console_ready]
          ++ dispatch engine lnoise fuel content (some 0)
      ∧ autorunLines (app_main_from tickMs uart engine lnoise fuel (some content))
        = ((cstr content 0).splitOn 59).take fuel := by
  have hq := countdownLoop_quiet_ticks tickMs uart 0 (k - 1) (5 - (k - 1)) 0
    (by intro j hj; rw [Nat.zero_add]; exact hpre j (by omega))
  have h5 : 5 - (k - 1) + (k - 1) = 5 := by omega
  have h4 : 5 - (k - 1) = (5 - k) + 1 := by omega
  rw [h5, Nat.zero_add, h4, countdownLoop_step_enter _ _ _ _ _ c hc hcr] at hq
  obtain ⟨q1, q2, q3, q4⟩ := hq
  have hout : (countdown tickMs uart).outcome = Outcome.Skipped := q1
  have hcmd : (countdown tickMs uart).autorun_cmdlist = some 0 := q2
  have hpr : probes (countdown tickMs uart).trace = (List.range k).map uart := by
    have hk : k = (k - 1) + 1 := by omega
    rw [hk, List.range_succ, List.map_append]
    simp only [Nat.zero_add] at q3
    simpa [countdown, probes, probeResult, hc] using q3
  have hde : delays (countdown tickMs uart).trace = List.replicate (k - 1) (1000 / tickMs) := by
    simpa [countdown, delays, delayTicks] using q4
  obtain ⟨a1, _, a3, _⟩ := app_main_from_loaded tickMs uart engine lnoise fuel content
  rw [hcmd] at a1 a3
  obtain ⟨m1, _, _⟩ := mainLoop_autorun engine lnoise fuel
    { content := content, autorun_cmd := some 0, nruns := 0, nreads := 0 } 0 rfl
  refine ⟨hout, hpr, ?_, hde, ?_, hcmd, a1, ?_⟩
  · rw [hpr]; simp
  · intro hdvd
    unfold sleptMs
    rw [hde]
    exact sum_replicate_mul (k - 1) 1000 tickMs hdvd
  · rw [a3]; exact m1

/-- Witness of C5: Enter at tick 2 of 5, with a tick period of 10 ms: two probes, one
delay of 100 ticks, ticks 3 to 5 not consumed. -/
theorem C5_enter_skips_countdown_witness :
    (countdown 10 (fun n => if n = 1 then some 13 else none)).outcome = Outcome.Skipped
      ∧ probes (countdown 10 (fun n => if n = 1 then some 13 else none)).trace
          = [none, some 13]
      ∧ delays (countdown 10 (fun n => if n = 1 then some 13 else none)).trace = [100]
      ∧ sleptMs 10 (countdown 10 (fun n => if n = 1 then some 13 else none)).trace = 1000 := by
  have h := C5_enter_skips_countdown 10 (fun n => if n = 1 then some 13 else none)
    engineOk noInput (bytes "restart" ++ [0]) 1 2 13 (by decide) (by decide)
    (by intro j hj; have h0 : j = 0 := by omega
        subst h0; rfl)
    (by decide) (by decide)
  exact ⟨h.1, h.2.1, h.2.2.2.1, h.2.2.2.2.1 (by decide)⟩

/-- C6. When none of the five probes meets CR, LF or ETX (each finds no byte or some
other byte), the countdown ends `Expired` after exactly five ticks: five probes and five
delays of `1000 / portTICK_PERIOD_MS` ticks, which is five times 1000 ms when the tick
period divides 1000 ms; `autorun_cmdlist` still points to the loaded list and the main
loop is entered with it. For every input, taking away the bytes other than CR, LF and
ETX changes neither the outcome, nor `autorun_cmdlist`, nor the delays, nor the number
of probes. -/
theorem C6_countdown_expires (tickMs : Nat) (engine : Nat → List Nat → RunResult)
    (lnoise : Nat → Option (List Nat)) (content : List Nat) (fuel : Nat) :
    (∀ uart : Nat → Option Nat, (∀ j < 5, isInterrupt (uart j) = false) →
        (countdown tickMs uart).outcome = Outcome.Expired
          ∧ probes (countdown tickMs uart).trace = (List.range 5).map uart
          ∧ delays (countdown tickMs uart).trace = List.replicate 5 (1000 / tickMs)
          ∧ (tickMs ∣ 1000 → sleptMs tickMs (countdown tickMs uart).trace = 5 * 1000)
          ∧ (countdown tickMs uart).autorun_cmdlist = some 0
          ∧ app_main_from tickMs uart engine lnoise fuel (some content)
            = [Event.printf_attention (cstr content 0)] ++ (countdown tickMs uart).trace
              ++ [Event.printf_newlines, Event.console_ready]
          ++ dispatch engine lnoise fuel content (some 0)
          ∧ autorunLines (app_main_from tickMs uart engine lnoise fuel (some content))
            = ((cstr content 0).splitOn 59).take fuel
          ∧ (countdown tickMs uart).outcome = (countdown tickMs uartSilent).outcome
          ∧ delays (countdown tickMs uart).trace = delays (countdown tickMs uartSilent).trace)
      ∧ (∀ uart : Nat → Option Nat,
          (countdown tickMs uart).outcome = (countdown tickMs (onlyInterrupts uart)).outcome
            ∧ (countdown tickMs uart).autorun_cmdlist
              = (countdown tickMs (onlyInterrupts uart)).autorun_cmdlist
            ∧ delays (countdown tickMs uart).trace
              = delays (countdown tickMs (onlyInterrupts uart)).trace
            ∧ (probes (countdown tickMs uart).trace).length
              = (probes (countdown tickMs (onlyInterrupts uart)).trace).length) := by
  have hexp : ∀ uart : Nat → Option Nat, (∀ j < 5, isInterrupt (uart j) = false) →
      (countdown tickMs uart).outcome = Outcome.Expired
        ∧ (countdown tickMs uart).autorun_cmdlist = some 0
        ∧ probes (countdown tickMs uart).trace = (List.range 5).map uart
        ∧ delays (countdown tickMs uart).trace = List.replicate 5 (1000 / tickMs) := by
    intro uart hq
    have h := countdownLoop_quiet_ticks tickMs uart 0 5 0 0 (by simpa using hq)
    obtain ⟨q1, q2, q3, q4⟩ := h
    refine ⟨q1, q2, ?_, ?_⟩
    · simpa [countdown, countdownLoop, probes] using q3
    · simpa [countdown, countdownLoop, delays] using q4
  refine ⟨?_, ?_⟩
  · intro uart hq
    obtain ⟨e1, e2, e3, e4⟩ := hexp uart hq
    obtain ⟨s1, _, _, s4⟩ := hexp uartSilent (fun _ _ => rfl)
    obtain ⟨a1, _, a3, _⟩ := app_main_from_loaded tickMs uart engine lnoise fuel content
    rw [e2] at a1 a3
    obtain ⟨m1, _, _⟩ := mainLoop_autorun engine lnoise fuel
      { content := content, autorun_cmd := some 0, nruns := 0, nreads := 0 } 0 rfl
    refine ⟨e1, e3, e4, ?_, e2, a1, ?_, ?_, ?_⟩
    · intro hdvd
      unfold sleptMs
      rw [e4]
      exact sum_replicate_mul 5 1000 tickMs hdvd
    · rw [a3]; exact m1
    · rw [e1, s1]
    · rw [e4, s4]
  · intro uart
    exact countdownLoop_onlyInterrupts tickMs uart 0 5 0

/-- Witness of C6: bytes other than CR, LF, ETX at ticks 1 and 4, tick period 10 ms:
the countdown expires after five delays of 100 ticks. -/
theorem C6_countdown_expires_witness :
    (countdown 10 (fun n => if n = 0 then some 120 else if n = 3 then some 32 else none)).outcome
        = Outcome.Expired
      ∧ delays (countdown 10
          (fun n => if n = 0 then some 120 else if n = 3 then some 32 else none)).trace
          = [100, 100, 100, 100, 100]
      ∧ sleptMs 10 (countdown 10
          (fun n => if n = 0 then some 120 else if n = 3 then some 32 else none)).trace
          = 5000 := by
  have h := (C6_countdown_expires 10 engineOk noInput (bytes "restart" ++ [0]) 3).1
    (fun n => if n = 0 then some 120 else if n = 3 then some 32 else none) (by decide)
  exact ⟨h.1, h.2.2.1, h.2.2.2.1 (by decide)⟩

/-! ## Task lookup and `autorun_wait` -/

/-- C7. For a task that the lookup resolved (non-NULL handle `th`), when the first `n`
polls of its state find running, ready, blocked or suspended and the next one finds any
other state, `autorun_wait` returns 0 exactly at that poll: its events are the lookup,
then `n` polls each followed by a delay of `100 / portTICK_PERIOD_MS` ticks (100 ms when
the tick period divides 100), then the last poll; and it has not returned after any
smaller number of polls. -/
theorem C7_wait_returns_at_first_terminal_state (tickMs : Nat) (args : StrArgs)
    (mallocOk : Bool) (snapshot : List TaskStatus_t) (stateOf : Nat → Nat → eTaskState)
    (n : Nat) (hargs : args.nerrors = 0)
    (hres : LOCAL_xTaskGetHandle mallocOk snapshot args.sval0 ≠ 0)
    (hact : ∀ j < n,
      isActive (stateOf (LOCAL_xTaskGetHandle mallocOk snapshot args.sval0) j) = true)
    (hterm :
      isActive (stateOf (LOCAL_xTaskGetHandle mallocOk snapshot args.sval0) n) = false) :
    (∀ fuel, n < fuel →
        fn_autorun_cmd_wait tickMs args mallocOk snapshot stateOf fuel
          = some (0, Event.lookup (cstrOf args.sval0)
              :: pollsThenReturn (100 / tickMs)
                  (stateOf (LOCAL_xTaskGetHandle mallocOk snapshot args.sval0)) n))
      ∧ (∀ fuel, fuel ≤ n →
          fn_autorun_cmd_wait tickMs args mallocOk snapshot stateOf fuel = none)
      ∧ polls (pollsThenReturn (100 / tickMs)
            (stateOf (LOCAL_xTaskGetHandle mallocOk snapshot args.sval0)) n)
          = (List.range (n + 1)).map
              (stateOf (LOCAL_xTaskGetHandle mallocOk snapshot args.sval0))
      ∧ delays (pollsThenReturn (100 / tickMs)
            (stateOf (LOCAL_xTaskGetHandle mallocOk snapshot args.sval0)) n)
          = List.replicate n (100 / tickMs)
      ∧ (tickMs ∣ 100 →
          sleptMs tickMs (pollsThenReturn (100 / tickMs)
            (stateOf (LOCAL_xTaskGetHandle mallocOk snapshot args.sval0)) n) = n * 100) := by
  obtain ⟨hp, hd⟩ := polls_pollsThenReturn (100 / tickMs)
    (stateOf (LOCAL_xTaskGetHandle mallocOk snapshot args.sval0)) n
  refine ⟨?_, ?_, hp, hd, ?_⟩
  · intro fuel hfuel
    have h := waitLoop_returns tickMs
      (stateOf (LOCAL_xTaskGetHandle mallocOk snapshot args.sval0)) n fuel 0
      (by simpa using hact) (by simpa using hterm) hfuel
    simp only [Nat.zero_add] at h
    simp only [fn_autorun_cmd_wait, hargs, hres, h, ne_eq, not_true_eq_false, if_false,
      Option.map_some', ESP_OK]
  · intro fuel hfuel
    have h := waitLoop_blocks tickMs
      (stateOf (LOCAL_xTaskGetHandle mallocOk snapshot args.sval0)) fuel 0
      (by intro j hj; rw [Nat.zero_add]; exact hact j (by omega))
    simp only [fn_autorun_cmd_wait, hargs, hres, h, ne_eq, not_true_eq_false, if_false,
      Option.map_none']
  · intro hdvd
    unfold sleptMs
    rw [hd]
    exact sum_replicate_mul n 100 tickMs hdvd

/-- Witness of C7: a task seen running, ready, then deleted, with a tick period of 10 ms:
`autorun_wait` has not returned after two polls and returns 0 at the third, having slept
twice 10 ticks. -/
theorem C7_wait_returns_at_first_terminal_state_witness :
    fn_autorun_cmd_wait 10 { nerrors := 0, sval0 := bytes "iperf_traffic" ++ [0] } true
        sampleTasks sampleStates 3
        = some (0, [Event.lookup (bytes "iperf_traffic"),
            Event.poll eTaskState.eRunning, Event.vTaskDelay 10,
            Event.poll eTaskState.eReady, Event.vTaskDelay 10,
            Event.poll eTaskState.eDeleted])
      ∧ fn_autorun_cmd_wait 10 { nerrors := 0, sval0 := bytes "iperf_traffic" ++ [0] } true
          sampleTasks sampleStates 2 = none := by
  have h := C7_wait_returns_at_first_terminal_state 10
    { nerrors := 0, sval0 := bytes "iperf_traffic" ++ [0] } true sampleTasks sampleStates 2
    rfl (by decide) (by decide) (by decide)
  refine ⟨?_, h.2.1 2 (le_refl 2)⟩
  have h3 := h.1 3 (by decide)
  rw [h3]
  decide

/-- C8. When no task of the registry snapshot has the name given as argument,
`autorun_wait` returns 2 at once: whatever the number of polls allowed, its only event
is the lookup, with no state poll and no delay. The same holds when the snapshot could
not be allocated. -/
theorem C8_wait_unknown_task_returns_2 (tickMs : Nat) (args : StrArgs) (mallocOk : Bool)
    (snapshot : List TaskStatus_t) (stateOf : Nat → Nat → eTaskState) (fuel : Nat)
    (hargs : args.nerrors = 0)
    (hno : ∀ t ∈ snapshot, cstrOf t.pcTaskName ≠ cstrOf args.sval0) :
    fn_autorun_cmd_wait tickMs args mallocOk snapshot stateOf fuel
        = some (2, [Event.lookup (cstrOf args.sval0)])
      ∧ (fn_autorun_cmd_wait tickMs args mallocOk snapshot stateOf fuel).map
          (fun r => (polls r.2, delays r.2)) = some ([], []) := by
  have hth : LOCAL_xTaskGetHandle mallocOk snapshot args.sval0 = 0 := by
    unfold LOCAL_xTaskGetHandle
    cases mallocOk with
    | false => rfl
    | true => simpa using scanTasks_no_match args.sval0 snapshot hno
  have h : fn_autorun_cmd_wait tickMs args mallocOk snapshot stateOf fuel
      = some (2, [Event.lookup (cstrOf args.sval0)]) := by
    simp only [fn_autorun_cmd_wait, hargs, hth, ne_eq, not_true_eq_false, if_false, if_true]
  refine ⟨h, ?_⟩
  rw [h]
  rfl

/-- Witness of C8: waiting for `worker` when the registry holds no such task returns 2
without a single poll. -/
theorem C8_wait_unknown_task_returns_2_witness :
    fn_autorun_cmd_wait 10 { nerrors := 0, sval0 := bytes "worker" ++ [0] } true
        sampleTasks sampleStates 0
      = some (2, [Event.lookup (bytes "worker")]) := by
  have h := (C8_wait_unknown_task_returns_2 10
    { nerrors := 0, sval0 := bytes "worker" ++ [0] } true sampleTasks sampleStates 0
    rfl (by decide)).1
  rw [h]
  decide

/-- C9. With the snapshot allocated, `LOCAL_xTaskGetHandle` returns the handle of the
first entry, in enumeration order, whose name is the given name as a C string; when the
handles of the snapshot are non-NULL it returns NULL exactly when no entry has that
name. A name that is a proper beginning of the given one, or that differs from it in
case, does not match. -/
theorem C9_lookup_first_exact_match (taskname : List Nat) :
    (∀ (pre post : List TaskStatus_t) (t : TaskStatus_t),
        (∀ u ∈ pre, cstrOf u.pcTaskName ≠ cstrOf taskname) →
        cstrOf t.pcTaskName = cstrOf taskname →
        LOCAL_xTaskGetHandle true (pre ++ t :: post) taskname = t.xHandle)
      ∧ (∀ snapshot : List TaskStatus_t, (∀ t ∈ snapshot, t.xHandle ≠ 0) →
          (LOCAL_xTaskGetHandle true snapshot taskname = 0
            ↔ ∀ t ∈ snapshot, cstrOf t.pcTaskName ≠ cstrOf taskname))
      ∧ LOCAL_xTaskGetHandle true sampleTasks (bytes "iperf_traffic" ++ [0]) = 9
      ∧ LOCAL_xTaskGetHandle true sampleTasks (bytes "iperf_traf" ++ [0]) = 0
      ∧ LOCAL_xTaskGetHandle true sampleTasks (bytes "Iperf" ++ [0]) = 0 := by
  refine ⟨?_, ?_, by decide, by decide, by decide⟩
  · intro pre post t hpre ht
    simpa [LOCAL_xTaskGetHandle] using scanTasks_first_match taskname t post ht pre hpre
  · intro snapshot hwf
    simpa [LOCAL_xTaskGetHandle] using scanTasks_zero_iff taskname snapshot hwf

/-- Witness of C9: in the sample registry the first of the two tasks named
`iperf_traffic` is the one returned. -/
theorem C9_lookup_first_exact_match_witness :
    LOCAL_xTaskGetHandle true
        ([ { xHandle := 7, pcTaskName := bytes "iperf" ++ [0] },
           { xHandle := 8, pcTaskName := bytes "IPERF_TRAFFIC" ++ [0] } ]
          ++ { xHandle := 9, pcTaskName := bytes "iperf_traffic" ++ [0, 120] }
            :: [ { xHandle := 10, pcTaskName := bytes "iperf_traffic" ++ [0] } ])
        (bytes "iperf_traffic" ++ [0]) = 9 :=
  (C9_lookup_first_exact_match (bytes "iperf_traffic" ++ [0])).1
    [ { xHandle := 7, pcTaskName := bytes "iperf" ++ [0] },
      { xHandle := 8, pcTaskName := bytes "IPERF_TRAFFIC" ++ [0] } ]
    [ { xHandle := 10, pcTaskName := bytes "iperf_traffic" ++ [0] } ]
    { xHandle := 9, pcTaskName := bytes "iperf_traffic" ++ [0, 120] }
    (by decide) (by decide)

/-! ## The command-list store -/

theorem fn_autorun_cmd_set_noFault (s : Nvs) (X : List Nat) :
    (fn_autorun_cmd_set noFault s { nerrors := 0, sval0 := X }).value = 0
      ∧ (fn_autorun_cmd_set noFault s { nerrors := 0, sval0 := X }).nvs.cmdlist
          = some (cstrOf X) := by
  simp [fn_autorun_cmd_set, nvs_open, nvs_set_str, nvs_commit, nvs_close, noFault, ESP_OK]

theorem fn_autorun_get_noFault_some (s : Nvs) (v : List Nat) (hs : s.cmdlist = some v)
    (hfit : v.length + 1 ≤ 1024) :
    (fn_autorun_get noFault s).value = some (v ++ 0 :: content_init.drop (v.length + 1)) := by
  simp [fn_autorun_get, nvs_open, nvs_get_str, nvs_close, noFault, ESP_OK, hs, hfit]

theorem fn_autorun_get_noFault_none (s : Nvs) (hs : s.cmdlist = none) :
    (fn_autorun_get noFault s).value = none := by
  simp [fn_autorun_get, nvs_open, nvs_get_str, noFault, ESP_OK, ESP_ERR_NVS_NOT_FOUND, hs]

theorem fn_autorun_cmd_erase_noFault (s : Nvs) :
    (fn_autorun_cmd_erase noFault s).nvs.cmdlist = none := by
  cases hs : s.cmdlist with
  | none =>
    simp [fn_autorun_cmd_erase, nvs_open, nvs_erase_key, noFault, ESP_OK,
      ESP_ERR_NVS_NOT_FOUND, hs]
  | some v =>
    simp [fn_autorun_cmd_erase, nvs_open, nvs_erase_key, nvs_commit, nvs_close, noFault,
      ESP_OK, hs]

/-- C10. Over a store that behaves as a key/value map (no call fails), for every string
`X` that fits the capacity of 1024 bytes with its terminator: `autorun_set` of `X`
returns 0 and a following `fn_autorun_get` returns a buffer whose C string is exactly
`X`; and after `autorun_erase`, from any state of the store and in particular after that
save, `fn_autorun_get` returns NULL. -/
theorem C10_save_load_roundtrip (s : Nvs) (X : List Nat)
    (hfit : (cstrOf X).length + 1 ≤ 1024) :
    (fn_autorun_cmd_set noFault s { nerrors := 0, sval0 := X }).value = 0
      ∧ (fn_autorun_get noFault
            (fn_autorun_cmd_set noFault s { nerrors := 0, sval0 := X }).nvs).value.map
          (fun content => cstr content 0) = some (cstrOf X)
      ∧ (fn_autorun_get noFault (fn_autorun_cmd_erase noFault s).nvs).value = none
      ∧ (fn_autorun_cmd_erase noFault
            (fn_autorun_cmd_set noFault s { nerrors := 0, sval0 := X }).nvs).value = 0
      ∧ (fn_autorun_get noFault
            (fn_autorun_cmd_erase noFault
              (fn_autorun_cmd_set noFault s { nerrors := 0, sval0 := X }).nvs).nvs).value
          = none := by
  obtain ⟨h1, h2⟩ := fn_autorun_cmd_set_noFault s X
  refine ⟨h1, ?_, ?_, ?_, ?_⟩
  · rw [fn_autorun_get_noFault_some _ (cstrOf X) h2 hfit]
    simp only [Option.map_some', cstr, List.drop_zero]
    rw [cstrOf_append_zero _ _ (fun b hb h0 => zero_not_mem_cstrOf X (h0 ▸ hb))]
  · exact fn_autorun_get_noFault_none _ (fn_autorun_cmd_erase_noFault s)
  · have h3 : nvs_open noFault
          (fn_autorun_cmd_set noFault s { nerrors := 0, sval0 := X }).nvs
        = (ESP_OK, { (fn_autorun_cmd_set noFault s { nerrors := 0, sval0 := X }).nvs with
            sessions := (fn_autorun_cmd_set noFault s
              { nerrors := 0, sval0 := X }).nvs.sessions + 1,
            calls := (fn_autorun_cmd_set noFault s
              { nerrors := 0, sval0 := X }).nvs.calls + 1 }) := by
      simp [nvs_open, noFault]
    simp [fn_autorun_cmd_erase, h3, nvs_erase_key, nvs_commit, nvs_close, noFault, ESP_OK, h2]
  · exact fn_autorun_get_noFault_none _ (fn_autorun_cmd_erase_noFault _)

/-- Witness of C10: saving `iperf -s; restart` in an empty store and loading it back. -/
theorem C10_save_load_roundtrip_witness :
    (cstrOf (bytes "iperf -s; restart" ++ [0])).length + 1 ≤ 1024
      ∧ (fn_autorun_get noFault
            (fn_autorun_cmd_set noFault nvsEmpty
              { nerrors := 0, sval0 := bytes "iperf -s; restart" ++ [0] }).nvs).value.map
          (fun content => cstr content 0) = some (cstrOf (bytes "iperf -s; restart" ++ [0])) :=
  ⟨by decide,
    (C10_save_load_roundtrip nvsEmpty (bytes "iperf -s; restart" ++ [0]) (by decide)).2.1⟩

/-- C11 (the code at the failing input). In a store that holds no command list and in
which no call is made to fail, `autorun_erase` does not return 0: `nvs_erase_key`
reports `ESP_ERR_NVS_NOT_FOUND` and the command returns that code at once, past
`nvs_commit` and `nvs_close`. A load performed afterwards yields NULL. -/
theorem C11_erase_on_empty_store_returns_not_found :
    (fn_autorun_cmd_erase noFault nvsEmpty).value = ESP_ERR_NVS_NOT_FOUND
      ∧ (fn_autorun_cmd_erase noFault nvsEmpty).value ≠ 0
      ∧ (fn_autorun_cmd_erase noFault nvsEmpty).trace
          = [Event.nvs_open 0, Event.nvs_erase_key ESP_ERR_NVS_NOT_FOUND]
      ∧ (fn_autorun_get noFault (fn_autorun_cmd_erase noFault nvsEmpty).nvs).value = none := by
  refine ⟨by decide, by decide, by decide, ?_⟩
  exact fn_autorun_get_noFault_none _ (fn_autorun_cmd_erase_noFault nvsEmpty)

/-- C12 (counterexample). A load that meets a storage fault, at `nvs_open` or at
`nvs_get_str`, in a store that does hold a list, returns the very value it returns
for a store without list: NULL. -/
theorem C12_load_fault_same_as_none :
    (fn_autorun_get noFault nvsEmpty).value = none
      ∧ (fn_autorun_get (faultAt 0 0x1101) nvsRestart).value
          = (fn_autorun_get noFault nvsEmpty).value
      ∧ (fn_autorun_get (faultAt 1 0x1105) nvsRestart).value
          = (fn_autorun_get noFault nvsEmpty).value := by
  refine ⟨by decide, by decide, by decide⟩

/-- C12 (amended). `fn_autorun_get` returns the buffer holding the stored list when one
is present, fits the 1024 bytes and no call fails, and NULL when the key is absent; on
every storage fault it returns NULL as well, and the fault shows only in an `ESP_LOGE`
line carrying its code, a line that the two fault-free cases do not produce. The command
`autorun_get` does tell the cases apart by its status: the code of the fault, and 0 when
a list is present or absent. -/
theorem C12_load_returns_list_or_null (fault : Nat → Int) (s : Nvs) :
    (∀ v, s.cmdlist = some v → v.length + 1 ≤ 1024 → fault s.calls = 0 →
        fault (s.calls + 1) = 0 →
        (fn_autorun_get fault s).value = some (v ++ 0 :: content_init.drop (v.length + 1))
          ∧ (fn_autorun_get fault s).trace.any isErrorLog = false
          ∧ (fn_autorun_cmd_get fault s).value = 0)
      ∧ (s.cmdlist = none → fault s.calls = 0 → fault (s.calls + 1) = 0 →
          (fn_autorun_get fault s).value = none
            ∧ (fn_autorun_get fault s).trace.any isErrorLog = false
            ∧ (fn_autorun_cmd_get fault s).value = 0)
      ∧ (∀ e ∈ (fn_autorun_get fault s).trace, ∀ c, storageFault e = some c →
          (fn_autorun_get fault s).value = none
            ∧ Event.log_error c ∈ (fn_autorun_get fault s).trace)
      ∧ (∀ e ∈ (fn_autorun_cmd_get fault s).trace, ∀ c, storageFault e = some c →
          (fn_autorun_cmd_get fault s).value = c ∧ c ≠ 0) := by
  refine ⟨?_, ?_, ?_, ?_⟩
  · intro v hv hfit h0 h1
    simp [fn_autorun_get, fn_autorun_cmd_get, nvs_open, nvs_get_str, nvs_close, ESP_OK, h0,
      h1, hv, hfit, isErrorLog]
  · intro hv h0 h1
    simp [fn_autorun_get, fn_autorun_cmd_get, nvs_open, nvs_get_str, nvs_close, ESP_OK,
      ESP_ERR_NVS_NOT_FOUND, h0, h1, hv, isErrorLog]
  · intro e he c hc
    unfold fn_autorun_get at he ⊢
    simp only [] at he ⊢
    split_ifs at he ⊢ with h1 h2 h3
    · simp only [List.mem_cons, List.mem_singleton, List.not_mem_nil, or_false] at he
      rcases he with he | he <;> subst he <;> simp_all [storageFault]
    · simp only [List.mem_cons, List.mem_singleton, List.not_mem_nil, or_false] at he
      rcases he with he | he <;> subst he <;> simp_all [storageFault, ESP_OK]
    · simp only [List.mem_cons, List.mem_singleton, List.not_mem_nil, or_false] at he
      rcases he with he | he | he <;> subst he <;> simp_all [storageFault, ESP_OK]
    · simp only [List.mem_cons, List.mem_singleton, List.not_mem_nil, or_false] at he
      rcases he with he | he | he <;> subst he <;> simp_all [storageFault, ESP_OK]
  · intro e he c hc
    unfold fn_autorun_cmd_get at he ⊢
    simp only [] at he ⊢
    split_ifs at he ⊢ with h1 h2 h3
    · simp only [List.mem_cons, List.mem_singleton, List.not_mem_nil, or_false] at he
      subst he
      simp_all [storageFault, ESP_OK]
    · simp only [List.mem_cons, List.mem_singleton, List.not_mem_nil, or_false] at he
      rcases he with he | he | he | he <;> subst he <;> simp_all [storageFault, ESP_OK]
    · simp only [List.mem_cons, List.mem_singleton, List.not_mem_nil, or_false] at he
      rcases he with he | he | he | he <;> subst he <;> simp_all [storageFault, ESP_OK]
    · simp only [List.mem_cons, List.mem_singleton, List.not_mem_nil, or_false] at he
      rcases he with he | he | he <;> subst he <;> simp_all [storageFault, ESP_OK]

/-- Witness of C12: a read that fails with code `0x1105` on a store that holds `restart`
gives NULL and the `ESP_LOGE` line with that code. -/
theorem C12_load_returns_list_or_null_witness :
    (fn_autorun_get (faultAt 1 0x1105) nvsRestart).value = none
      ∧ Event.log_error 0x1105 ∈ (fn_autorun_get (faultAt 1 0x1105) nvsRestart).trace :=
  (C12_load_returns_list_or_null (faultAt 1 0x1105) nvsRestart).2.2.1
    (Event.nvs_get_str 0x1105) (by decide) 0x1105 (by decide)

/-- C13 (the code at the failing inputs). Four executions that return with the storage
session still open: the boot-time load on a store without command list, `autorun_erase`
on such a store, `autorun_set` when `nvs_commit` fails, and `autorun_get` when the read
fails. In each the session count is 1 on return, whereas the successful executions of
the same functions end with it back at 0. -/
theorem C13_sessions_left_open_on_error_paths :
    (fn_autorun_get noFault nvsEmpty).nvs.sessions = 1
      ∧ (fn_autorun_cmd_erase noFault nvsEmpty).nvs.sessions = 1
      ∧ (fn_autorun_cmd_set (faultAt 2 0x1105) nvsEmpty
            { nerrors := 0, sval0 := bytes "restart" ++ [0] }).nvs.sessions = 1
      ∧ (fn_autorun_cmd_get (faultAt 1 0x1105) nvsRestart).nvs.sessions = 1
      ∧ (fn_autorun_get noFault nvsRestart).nvs.sessions = 0
      ∧ (fn_autorun_cmd_erase noFault nvsRestart).nvs.sessions = 0
      ∧ (fn_autorun_cmd_set noFault nvsEmpty
            { nerrors := 0, sval0 := bytes "restart" ++ [0] }).nvs.sessions = 0
      ∧ (fn_autorun_cmd_get noFault nvsRestart).nvs.sessions = 0 := by
  refine ⟨by decide, by decide, by decide, by decide, by decide, by decide, by decide,
    by decide⟩

/-- C14. For `autorun_get`, `autorun_set` and `autorun_erase`, in every state of the
store and for every choice of failing calls: when a storage call of the command fails
with a code `c` (the key-not-found of a read apart) the command returns exactly `c`,
which is not 0; hence the command returns 0 only when none of its storage calls
failed. -/
theorem C14_storage_fault_code_is_returned (fault : Nat → Int) (s : Nvs) (args : StrArgs) :
    (∀ e ∈ (fn_autorun_cmd_get fault s).trace, ∀ c, storageFault e = some c →
        (fn_autorun_cmd_get fault s).value = c ∧ c ≠ 0)
      ∧ (∀ e ∈ (fn_autorun_cmd_set fault s args).trace, ∀ c, storageFault e = some c →
          (fn_autorun_cmd_set fault s args).value = c ∧ c ≠ 0)
      ∧ (∀ e ∈ (fn_autorun_cmd_erase fault s).trace, ∀ c, storageFault e = some c →
          (fn_autorun_cmd_erase fault s).value = c ∧ c ≠ 0)
      ∧ ((fn_autorun_cmd_get fault s).value = 0 →
          ∀ e ∈ (fn_autorun_cmd_get fault s).trace, storageFault e = none)
      ∧ ((fn_autorun_cmd_set fault s args).value = 0 →
          ∀ e ∈ (fn_autorun_cmd_set fault s args).trace, storageFault e = none)
      ∧ ((fn_autorun_cmd_erase fault s).value = 0 →
          ∀ e ∈ (fn_autorun_cmd_erase fault s).trace, storageFault e = none) := by
  have hget : ∀ e ∈ (fn_autorun_cmd_get fault s).trace, ∀ c, storageFault e = some c →
      (fn_autorun_cmd_get fault s).value = c ∧ c ≠ 0 := by
    intro e he c hc
    unfold fn_autorun_cmd_get at he ⊢
    simp only [] at he ⊢
    split_ifs at he ⊢ with h1 h2 h3
    · simp only [List.mem_cons, List.mem_singleton, List.not_mem_nil, or_false] at he
      subst he
      simp_all [storageFault, ESP_OK]
    · simp only [List.mem_cons, List.mem_singleton, List.not_mem_nil, or_false] at he
      rcases he with he | he | he | he <;> subst he <;> simp_all [storageFault, ESP_OK]
    · simp only [List.mem_cons, List.mem_singleton, List.not_mem_nil, or_false] at he
      rcases he with he | he | he | he <;> subst he <;> simp_all [storageFault, ESP_OK]
    · simp only [List.mem_cons, List.mem_singleton, List.not_mem_nil, or_false] at he
      rcases he with he | he | he <;> subst he <;> simp_all [storageFault, ESP_OK]
  have hset : ∀ e ∈ (fn_autorun_cmd_set fault s args).trace, ∀ c, storageFault e = some c →
      (fn_autorun_cmd_set fault s args).value = c ∧ c ≠ 0 := by
    intro e he c hc
    unfold fn_autorun_cmd_set at he ⊢
    simp only [] at he ⊢
    split_ifs at he ⊢ with h0 h1 h2 h3
    · simp only [List.mem_cons, List.mem_singleton, List.not_mem_nil, or_false] at he
      subst he
      simp [storageFault] at hc
    · simp only [List.mem_cons, List.mem_singleton, List.not_mem_nil, or_false] at he
      subst he
      simp_all [storageFault, ESP_OK]
    · simp only [List.mem_cons, List.mem_singleton, List.not_mem_nil, or_false] at he
      rcases he with he | he <;> subst he <;> simp_all [storageFault, ESP_OK]
    · simp only [List.mem_cons, List.mem_singleton, List.not_mem_nil, or_false] at he
      rcases he with he | he | he <;> subst he <;> simp_all [storageFault, ESP_OK]
    · simp only [List.mem_cons, List.mem_singleton, List.not_mem_nil, or_false] at he
      rcases he with he | he | he | he <;> subst he <;> simp_all [storageFault, ESP_OK]
  have herase : ∀ e ∈ (fn_autorun_cmd_erase fault s).trace, ∀ c, storageFault e = some c →
      (fn_autorun_cmd_erase fault s).value = c ∧ c ≠ 0 := by
    intro e he c hc
    unfold fn_autorun_cmd_erase at he ⊢
    simp only [] at he ⊢
    split_ifs at he ⊢ with h1 h2 h3
    · simp only [List.mem_cons, List.mem_singleton, List.not_mem_nil, or_false] at he
      subst he
      simp_all [storageFault, ESP_OK]
    · simp only [List.mem_cons, List.mem_singleton, List.not_mem_nil, or_false] at he
      rcases he with he | he <;> subst he <;> simp_all [storageFault, ESP_OK]
    · simp only [List.mem_cons, List.mem_singleton, List.not_mem_nil, or_false] at he
      rcases he with he | he | he <;> subst he <;> simp_all [storageFault, ESP_OK]
    · simp only [List.mem_cons, List.mem_singleton, List.not_mem_nil, or_false] at he
      rcases he with he | he | he | he <;> subst he <;> simp_all [storageFault, ESP_OK]
  have hzero : ∀ (value : Int) (tr : List Event),
      (∀ e ∈ tr, ∀ c, storageFault e = some c → value = c ∧ c ≠ 0) →
      value = 0 → ∀ e ∈ tr, storageFault e = none := by
    intro value tr h hv e he
    cases hf : storageFault e with
    | none => rfl
    | some c =>
      obtain ⟨h1, h2⟩ := h e he c hf
      exact absurd (h1.symm.trans hv) h2
  exact ⟨hget, hset, herase, hzero _ _ hget, hzero _ _ hset, hzero _ _ herase⟩

/-- Witness of C14: `autorun_set` whose `nvs_commit` fails with code `0x1105` returns
`0x1105`. -/
theorem C14_storage_fault_code_is_returned_witness :
    Event.nvs_commit 0x1105 ∈ (fn_autorun_cmd_set (faultAt 2 0x1105) nvsEmpty
        { nerrors := 0, sval0 := bytes "restart" ++ [0] }).trace
      ∧ (fn_autorun_cmd_set (faultAt 2 0x1105) nvsEmpty
          { nerrors := 0, sval0 := bytes "restart" ++ [0] }).value = 0x1105 :=
  ⟨by decide,
    ((C14_storage_fault_code_is_returned (faultAt 2 0x1105) nvsEmpty
      { nerrors := 0, sval0 := bytes "restart" ++ [0] }).2.1
      (Event.nvs_commit 0x1105) (by decide) 0x1105 (by decide)).1⟩

/-! ## Argument errors and `autorun_delay` -/

/-- C15. When `arg_parse` reports an error, `autorun_set`, `autorun_delay` and
`autorun_wait` return 1 having done nothing but print the errors: the store is left as
it was (no NVS call), there is no lookup, no poll and no delay, whatever the number of
polls allowed. When it reports none, the commands go on: `autorun_set` opens the store
and returns 0 or the code of a storage call that failed, `autorun_delay` makes its delay
and returns 0, and `autorun_wait` does its lookup and, if it returns, returns 0 or 2. -/
theorem C15_parse_error_returns_1 (fault : Nat → Int) (s : Nvs) (tickMs : Nat)
    (sargs : StrArgs) (iargs : IntArgs) (mallocOk : Bool) (snapshot : List TaskStatus_t)
    (stateOf : Nat → Nat → eTaskState) (fuel : Nat) :
    (sargs.nerrors ≠ 0 →
        (fn_autorun_cmd_set fault s sargs).value = 1
          ∧ (fn_autorun_cmd_set fault s sargs).nvs = s
          ∧ (fn_autorun_cmd_set fault s sargs).trace = [Event.arg_print_errors]
          ∧ fn_autorun_cmd_wait tickMs sargs mallocOk snapshot stateOf fuel
              = some (1, [Event.arg_print_errors]))
      ∧ (iargs.nerrors ≠ 0 →
          fn_autorun_cmd_delay tickMs iargs = (1, [Event.arg_print_errors]))
      ∧ (sargs.nerrors = 0 →
          (fn_autorun_cmd_set fault s sargs).trace.head?
              = some (Event.nvs_open (nvs_open fault s).1)
            ∧ ((fn_autorun_cmd_set fault s sargs).value = 0
                ∨ ∃ e ∈ (fn_autorun_cmd_set fault s sargs).trace,
                    storageFault e = some (fn_autorun_cmd_set fault s sargs).value)
            ∧ ∀ r, fn_autorun_cmd_wait tickMs sargs mallocOk snapshot stateOf fuel = some r →
                (r.1 = 0 ∨ r.1 = 2) ∧ r.2.head? = some (Event.lookup (cstrOf sargs.sval0)))
      ∧ (iargs.nerrors = 0 →
          fn_autorun_cmd_delay tickMs iargs
            = (0, [Event.vTaskDelay (delayTicksOf tickMs iargs.ival0)])) := by
  refine ⟨?_, ?_, ?_, ?_⟩
  · intro h
    simp [fn_autorun_cmd_set, fn_autorun_cmd_wait, h]
  · intro h
    simp [fn_autorun_cmd_delay, h]
  · intro h
    refine ⟨?_, ?_, ?_⟩
    · unfold fn_autorun_cmd_set
      simp only [h, ne_eq, not_true_eq_false, if_false]
      split_ifs <;> rfl
    · unfold fn_autorun_cmd_set
      simp only [h, ne_eq, not_true_eq_false, if_false]
      split_ifs with h1 h2 h3
      · left; rfl
      · right
        refine ⟨Event.nvs_commit
          (nvs_commit fault (nvs_set_str fault (nvs_open fault s).2 sargs.sval0).2).1,
          by simp, ?_⟩
        simp only [storageFault]
        rw [if_pos (by simpa [ESP_OK] using h3)]
      · right
        refine ⟨Event.nvs_set_str (cstrOf sargs.sval0)
          (nvs_set_str fault (nvs_open fault s).2 sargs.sval0).1, by simp, ?_⟩
        simp only [storageFault]
        rw [if_pos (by simpa [ESP_OK] using h2)]
      · right
        refine ⟨Event.nvs_open (nvs_open fault s).1, by simp, ?_⟩
        simp only [storageFault]
        rw [if_pos (by simpa [ESP_OK] using h1)]
    · intro r hr
      unfold fn_autorun_cmd_wait at hr
      simp only [h, ne_eq, not_true_eq_false, if_false] at hr
      split_ifs at hr with h1
      · simp only [Option.some.injEq] at hr
        subst hr
        exact ⟨Or.inr rfl, rfl⟩
      · cases hw : waitLoop tickMs
            (stateOf (LOCAL_xTaskGetHandle mallocOk snapshot sargs.sval0)) fuel 0 with
        | none => simp [hw] at hr
        | some tr =>
          simp only [hw, Option.map_some', Option.some.injEq] at hr
          subst hr
          exact ⟨Or.inl rfl, rfl⟩
  · intro h
    simp [fn_autorun_cmd_delay, h]

/-- Witness of C15: `autorun_wait` without its argument (one parse error) returns 1
without looking any task up, and `autorun_set` with a parse error leaves the store
alone. -/
theorem C15_parse_error_returns_1_witness :
    fn_autorun_cmd_wait 10 { nerrors := 1, sval0 := [] } true sampleTasks sampleStates 7
        = some (1, [Event.arg_print_errors])
      ∧ (fn_autorun_cmd_set noFault nvsRestart { nerrors := 1, sval0 := [] }).nvs
          = nvsRestart := by
  have h := (C15_parse_error_returns_1 noFault nvsRestart 10 { nerrors := 1, sval0 := [] }
    { nerrors := 0, ival0 := 0 } true sampleTasks sampleStates 7).1 (by decide)
  exact ⟨h.2.2.2, h.2.1⟩

/-- C16 (counterexample). With a tick period of 10 ms, `autorun_delay 15` sleeps one
tick, that is 10 ms and not 15 ms. -/
theorem C16_delay_15_sleeps_10 :
    fn_autorun_cmd_delay 10 { nerrors := 0, ival0 := 15 } = (0, [Event.vTaskDelay 1])
      ∧ sleptMs 10 (fn_autorun_cmd_delay 10 { nerrors := 0, ival0 := 15 }).2 = 10
      ∧ sleptMs 10 (fn_autorun_cmd_delay 10 { nerrors := 0, ival0 := 15 }).2 ≠ 15 := by
  refine ⟨by decide, by decide, by decide⟩

/-- C16 (amended). For a duration of `d` milliseconds (a non-negative `int`) and a tick
period of `tickMs` milliseconds, `autorun_delay` makes one call `vTaskDelay(d / tickMs)`,
the quotient rounded down, and returns 0: the time slept is the largest multiple of the
tick period that does not exceed `d`; it is `d` exactly when the tick period divides
`d`, and otherwise falls short of `d` by less than one tick period. -/
theorem C16_delay_sleeps_whole_ticks (tickMs d : Nat) (hpos : 0 < tickMs)
    (hd : d < 2147483648) :
    fn_autorun_cmd_delay tickMs { nerrors := 0, ival0 := (d : Int) }
        = (0, [Event.vTaskDelay (d / tickMs)])
      ∧ sleptMs tickMs (fn_autorun_cmd_delay tickMs { nerrors := 0, ival0 := (d : Int) }).2
          = d / tickMs * tickMs
      ∧ d / tickMs * tickMs ≤ d
      ∧ d < d / tickMs * tickMs + tickMs
      ∧ (d / tickMs * tickMs = d ↔ tickMs ∣ d) := by
  have hconv : ((d : Int) % 4294967296).toNat = d := by omega
  have hcmd : fn_autorun_cmd_delay tickMs { nerrors := 0, ival0 := (d : Int) }
      = (0, [Event.vTaskDelay (d / tickMs)]) := by
    simp [fn_autorun_cmd_delay, delayTicksOf, hconv]
  refine ⟨hcmd, ?_, Nat.div_mul_le_self d tickMs, Nat.lt_div_mul_add hpos, ?_⟩
  · rw [hcmd]
    simp [sleptMs, delays, delayTicks]
  · constructor
    · intro h
      exact Dvd.intro_left _ h
    · intro h
      exact Nat.div_mul_cancel h

/-- Witness of C16: 2000 ms at a tick period of 10 ms is 200 ticks, exactly 2000 ms. -/
theorem C16_delay_sleeps_whole_ticks_witness :
    fn_autorun_cmd_delay 10 { nerrors := 0, ival0 := ((2000 : Nat) : Int) }
        = (0, [Event.vTaskDelay (2000 / 10)])
      ∧ sleptMs 10 (fn_autorun_cmd_delay 10 { nerrors := 0, ival0 := ((2000 : Nat) : Int) }).2
          = 2000 / 10 * 10 := by
  have h := C16_delay_sleeps_whole_ticks 10 2000 (by decide) (by decide)
  exact ⟨h.1, h.2.1⟩

/-! ## Entry of the countdown and end of the dispatch -/

/-- C17 (counterexample). A store that holds the empty string makes `fn_autorun_get`
return a buffer (whose C string is empty), and the boot then runs the countdown: with no
console input, five probes and five delays. -/
theorem C17_empty_string_runs_countdown :
    (fn_autorun_get noFault nvsEmptyString).value.map (fun content => cstr content 0)
        = some []
      ∧ probes (app_main noFault nvsEmptyString 10 uartSilent engineOk noInput 1)
          = [none, none, none, none, none]
      ∧ delays (app_main noFault nvsEmptyString 10 uartSilent engineOk noInput 1)
          = [100, 100, 100, 100, 100] := by
  refine ⟨by decide, by decide, by decide⟩

/-- C17 (amended). The countdown is entered exactly when `fn_autorun_get` returned a
buffer. When it returned NULL, as it does whenever the store holds no list, the boot
performs no countdown tick: no indicator line, no probe, no delay. When it returned a
buffer, and it does so for a stored empty string as for any other stored list that fits,
the boot prints the indicator line for 5 and makes the first probe. -/
theorem C17_countdown_entered_iff_list_loaded (fault : Nat → Int) (s : Nvs) (tickMs : Nat)
    (uart : Nat → Option Nat) (engine : Nat → List Nat → RunResult)
    (lnoise : Nat → Option (List Nat)) (fuel : Nat) :
    ((fn_autorun_get fault s).value = none →
        (app_main fault s tickMs uart engine lnoise fuel).filter isCountdownTick = [])
      ∧ (s.cmdlist = none → (fn_autorun_get fault s).value = none)
      ∧ (∀ content, (fn_autorun_get fault s).value = some content →
          Event.printf_count 5 ∈ app_main fault s tickMs uart engine lnoise fuel
            ∧ Event.uart_rx_one_char (uart 0)
                ∈ app_main fault s tickMs uart engine lnoise fuel)
      ∧ (∀ v, s.cmdlist = some v → v.length + 1 ≤ 1024 → fault s.calls = 0 →
          fault (s.calls + 1) = 0 →
          (fn_autorun_get fault s).value
            = some (v ++ 0 :: content_init.drop (v.length + 1))) := by
  refine ⟨?_, ?_, ?_, ?_⟩
  · intro hnone
    unfold app_main
    rw [hnone]
    simp only [app_main_from, dispatch, List.filter_append, fn_autorun_get_no_ticks,
      mainLoop_no_ticks, List.nil_append, List.append_nil]
    rfl
  · intro hs
    have hg := nvs_get_str_absent fault (nvs_open fault s).2 content_init 1024
      ((nvs_open_cmdlist fault s).trans hs)
    unfold fn_autorun_get
    simp only []
    split_ifs <;> simp_all
  · intro content hsome
    obtain ⟨rest, hrest⟩ := countdown_starts tickMs uart
    unfold app_main
    rw [hsome]
    simp only [app_main_from, hrest]
    constructor <;> simp
  · intro v hv hfit h0 h1
    simp [fn_autorun_get, nvs_open, nvs_get_str, nvs_close, ESP_OK, h0, h1, hv, hfit]

/-- Witness of C17: booting on a store without command list performs no countdown
tick. -/
theorem C17_countdown_entered_iff_list_loaded_witness :
    (fn_autorun_get noFault nvsEmpty).value = none
      ∧ (app_main noFault nvsEmpty 10 uartSilent engineOk noInput 2).filter isCountdownTick
          = [] :=
  ⟨by decide,
    (C17_countdown_entered_iff_list_loaded noFault nvsEmpty 10 uartSilent engineOk noInput
      2).1 (by decide)⟩

/-- C18 (counterexample). With the cursor at end-of-text the main loop does dispatch:
the empty list text hands the engine one empty line, and `a;` hands it `a` and then,
with the cursor at end-of-text, an empty line. -/
theorem C18_cursor_at_end_of_text_dispatches :
    cstr [0] 0 = []
      ∧ runs (dispatch engineOk noInput 1 [0] (some 0)) = [[]]
      ∧ runs (dispatch engineOk noInput 2 (bytes "a;" ++ [0]) (some 0)) = [bytes "a", []] := by
  refine ⟨by decide, by decide, by decide⟩

/-- C18 (amended). The dispatch of the list ends when the cursor is NULL: from then on
no line is announced as autorun and every line the engine receives was read from
linenoise. A cursor at end-of-text is not NULL: the iteration taken there hands the
engine one more command line, the empty one, and leaves the cursor NULL, so that an
empty list text dispatches exactly one empty line. -/
theorem C18_dispatch_ends_at_null_cursor (engine : Nat → List Nat → RunResult)
    (lnoise : Nat → Option (List Nat)) :
    (∀ (fuel : Nat) (t : LoopState), t.autorun_cmd = none →
        autorunLines (mainLoop engine lnoise fuel t) = []
          ∧ runs (mainLoop engine lnoise fuel t)
              = linenoiseLines (mainLoop engine lnoise fuel t))
      ∧ (∀ (s : LoopState) (p : Nat), s.autorun_cmd = some p → cstr s.content p = [] →
          (mainIter engine lnoise s).2
              = [Event.printf_autorun [], Event.esp_console_run []]
                ++ report (engine s.nruns [])
            ∧ LoopState.autorun_cmd (mainIter engine lnoise s).1 = none
            ∧ ∀ fuel, autorunLines (mainLoop engine lnoise (fuel + 1) s) = [[]])
      ∧ (∀ (content : List Nat) (fuel : Nat), cstr content 0 = [] →
          autorunLines (dispatch engine lnoise (fuel + 1) content (some 0)) = [[]]) := by
  have hsplit : ([] : List Nat).splitOn 59 = [[]] := by decide
  refine ⟨?_, ?_, ?_⟩
  · intro fuel t ht
    obtain ⟨h1, h2⟩ := mainLoop_interactive engine lnoise fuel t ht
    exact ⟨h2, h1⟩
  · intro s p hcur hend
    obtain ⟨l, hev, hnext⟩ := mainIter_autorun engine lnoise s p hcur
    rw [hend, hsplit] at hnext
    refine ⟨?_, ?_, ?_⟩
    · rcases hnext with ⟨_, hl⟩ | ⟨q, _, hl⟩
      · have : l = [] := by simpa using hl.symm
        rw [hev, this]
      · have : l = [] := by
          have := congrArg List.head? hl
          simpa using this.symm
        rw [hev, this]
    · rcases hnext with ⟨hn, _⟩ | ⟨q, _, hl⟩
      · exact hn
      · exfalso
        have htl := congrArg List.tail hl
        simp only [List.tail_cons] at htl
        exact splitOn_ne_nil _ 59 htl.symm
    · intro fuel
      obtain ⟨h1, _, _⟩ := mainLoop_autorun engine lnoise (fuel + 1) s p hcur
      rw [h1, hend, hsplit]
      simp
  · intro content fuel hend
    obtain ⟨h1, _, _⟩ := mainLoop_autorun engine lnoise (fuel + 1)
      { content := content, autorun_cmd := some 0, nruns := 0, nreads := 0 } 0 rfl
    unfold dispatch
    rw [h1, hend, hsplit]
    simp

/-- Witness of C18: after `a;` the cursor stands at end-of-text; the iteration taken
there dispatches the empty line and leaves the cursor NULL. -/
theorem C18_dispatch_ends_at_null_cursor_witness :
    cstr [97, 0, 0] 2 = []
      ∧ (mainIter engineOk noInput
            { content := [97, 0, 0], autorun_cmd := some 2, nruns := 1, nreads := 0 }).2
          = [Event.printf_autorun [], Event.esp_console_run []]
            ++ report (engineOk 1 [])
      ∧ LoopState.autorun_cmd (mainIter engineOk noInput
            { content := [97, 0, 0], autorun_cmd := some 2, nruns := 1, nreads := 0 }).1
          = none := by
  have h := (C18_dispatch_ends_at_null_cursor engineOk noInput).2.1
    { content := [97, 0, 0], autorun_cmd := some 2, nruns := 1, nreads := 0 } 2 rfl
    (by decide)
  exact ⟨by decide, h.1, h.2.1⟩

/-! ## The command `iperf` -/

/-- C19. Whenever `wifi_cmd_iperf` calls `iperf_start`, with configuration `cfg`:
`--abort` was not given, exactly one of `-c <ip>` and `-s` was given, and the local
address, which is `cfg.sip`, is not zero; `cfg.flag` carries the SERVER flag exactly
when `-c` is absent and the CLIENT flag exactly when it is present, hence exactly one
of the two, and likewise exactly one of TCP and UDP; a given `-p` value (as the 16-bit
port field holds it, the value itself when it is a port number) is the source port in
server mode and the destination port in client mode, the other port being
`IPERF_DEFAULT_PORT`, and both ports are the default when `-p` is absent. The flag
masks of `iperf.h` are taken to be non-empty and pairwise without a common bit. -/
theorem C19_iperf_start_configuration (k : IperfConsts) (w : WifiState) (a : IperfArgs)
    (cfg : iperf_cfg_t) (hk : k.disjointFlags)
    (hstart : (wifi_cmd_iperf k w a).2 = IperfCall.iperf_start cfg) :
    a.abort_count = 0
      ∧ ((a.ip_count ≠ 0 ∧ a.server_count = 0) ∨ (a.ip_count = 0 ∧ a.server_count ≠ 0))
      ∧ wifi_get_local_ip w ≠ 0
      ∧ cfg.sip = wifi_get_local_ip w
      ∧ (hasFlag cfg.flag k.IPERF_FLAG_SERVER = true ↔ a.ip_count = 0)
      ∧ (hasFlag cfg.flag k.IPERF_FLAG_CLIENT = true ↔ a.ip_count ≠ 0)
      ∧ hasFlag cfg.flag k.IPERF_FLAG_SERVER ≠ hasFlag cfg.flag k.IPERF_FLAG_CLIENT
      ∧ (hasFlag cfg.flag k.IPERF_FLAG_TCP = true ↔ a.udp_count = 0)
      ∧ (hasFlag cfg.flag k.IPERF_FLAG_UDP = true ↔ a.udp_count ≠ 0)
      ∧ hasFlag cfg.flag k.IPERF_FLAG_TCP ≠ hasFlag cfg.flag k.IPERF_FLAG_UDP
      ∧ (a.port_count ≠ 0 → hasFlag cfg.flag k.IPERF_FLAG_SERVER = true →
          cfg.sport = (a.port_ival0 % 65536).toNat ∧ cfg.dport = k.IPERF_DEFAULT_PORT)
      ∧ (a.port_count ≠ 0 → hasFlag cfg.flag k.IPERF_FLAG_CLIENT = true →
          cfg.dport = (a.port_ival0 % 65536).toNat ∧ cfg.sport = k.IPERF_DEFAULT_PORT)
      ∧ (0 ≤ a.port_ival0 → a.port_ival0 < 65536 →
          (((a.port_ival0 % 65536).toNat : Nat) : Int) = a.port_ival0)
      ∧ (a.port_count = 0 →
          cfg.sport = k.IPERF_DEFAULT_PORT ∧ cfg.dport = k.IPERF_DEFAULT_PORT) := by
  obtain ⟨fs, fc, ft, fu⟩ := hasFlag_iperfFlag k a hk
  unfold wifi_cmd_iperf at hstart
  by_cases h1 : a.nerrors ≠ 0
  · simp [h1] at hstart
  by_cases h2 : a.abort_count ≠ 0
  · simp [h1, h2] at hstart
  by_cases h3 : (a.ip_count = 0 ∧ a.server_count = 0) ∨ (a.ip_count ≠ 0 ∧ a.server_count ≠ 0)
  · simp [h1, h2, h3] at hstart
  by_cases h4 : wifi_get_local_ip w = 0
  · simp [h1, h2, h3, h4] at hstart
  simp only [h1, h2, h3, h4, if_false, IperfCall.iperf_start.injEq] at hstart
  subst hstart
  simp only []
  have habort : a.abort_count = 0 := by simpa using h2
  have hmode : (a.ip_count ≠ 0 ∧ a.server_count = 0) ∨ (a.ip_count = 0 ∧ a.server_count ≠ 0) := by
    by_cases hip : a.ip_count = 0 <;> by_cases hsv : a.server_count = 0 <;> simp_all
  have hserver : hasFlag (iperfFlag k a) k.IPERF_FLAG_SERVER = true
      ↔ iperfFlag k a &&& k.IPERF_FLAG_SERVER ≠ 0 := by
    simp [hasFlag]
  refine ⟨habort, hmode, h4, trivial, fs, fc, ?_, ft, fu, ?_, ?_, ?_, ?_, ?_⟩
  · by_cases hip : a.ip_count = 0
    · rw [fs.2 hip]
      intro h
      exact (fc.1 h.symm) hip
    · rw [fc.2 hip]
      intro h
      exact hip (fs.1 h)
  · by_cases hudp : a.udp_count = 0
    · rw [ft.2 hudp]
      intro h
      exact (fu.1 h.symm) hudp
    · rw [fu.2 hudp]
      intro h
      exact hudp (ft.1 h)
  · intro hp hsrv
    have hbit := hserver.1 hsrv
    simp [iperfPorts, hp, hbit]
  · intro hp hcl
    have hip : a.ip_count ≠ 0 := fc.1 hcl
    have hbit : ¬ (iperfFlag k a &&& k.IPERF_FLAG_SERVER ≠ 0) :=
      fun h => hip (fs.1 (hserver.2 h))
    simp [iperfPorts, hp, hbit]
  · intro h0 h1
    omega
  · intro hp
    simp [iperfPorts, hp]

/-- Witness of C19: `iperf -s -p 6000` on a connected station starts a TCP server that
listens on port 6000, the destination port being the default 5001. -/
theorem C19_iperf_start_configuration_witness :
    (wifi_cmd_iperf iperfConsts wifiConnected iperfServerArgs).2
        = IperfCall.iperf_start
            { flag := 6, dip := 0, sip := 33859776, dport := 5001, sport := 6000,
              interval := 3, time := 30 }
      ∧ hasFlag 6 iperfConsts.IPERF_FLAG_SERVER ≠ hasFlag 6 iperfConsts.IPERF_FLAG_CLIENT
      ∧ hasFlag 6 iperfConsts.IPERF_FLAG_TCP ≠ hasFlag 6 iperfConsts.IPERF_FLAG_UDP := by
  have h := C19_iperf_start_configuration iperfConsts wifiConnected iperfServerArgs
    { flag := 6, dip := 0, sip := 33859776, dport := 5001, sport := 6000,
      interval := 3, time := 30 }
    (by unfold IperfConsts.disjointFlags; decide) (by decide)
  exact ⟨by decide, h.2.2.2.2.2.2.1, h.2.2.2.2.2.2.2.2.2.1⟩

end Autorun
